import Mathlib

/-!
# Safe-Print backend (`backend/server.js`)

A shallow embedding of the session store, the Docker helper functions, the
multer upload pipeline and the Socket.IO handlers of `backend/server.js`,
together with the part of `AdminDashboard.jsx` that keeps the printed state.

Conventions of the embedding.

* The process-wide object `sessions` is a plain object: its own properties
  are an association list in insertion order, `sessions[k] = v` overwrites in
  place or appends, `delete sessions[k]` removes an own key, and a read
  `sessions[k]` of a name that is not an own key finds the members inherited
  from `Object.prototype` (`constructor`, `toString`, ...), which are truthy
  but have none of the properties of a session record.
* Every handler is a function from the server state (and the data supplied by
  the client and by the environment: clock readings, engine and disk outcomes)
  to the new state and the list of effects it performs, in program order.
  What a handler awaits (the container engine, the QR encoder) is resolved by
  the environment data of the event, so one event is one complete handler run.
* JavaScript numbers that count files are natural numbers (they are exact
  below 2^53), timestamps are the clock reading they render.
* Docker container ids are opaque to the server; the engine model issues them
  from a counter, so an id is never issued twice.
* Paths follow Node's posix `path` module.
* The upload route goes through multer: the declared file name is cut by
  busboy to what follows its last slash or backslash, with `.` and `..`
  replaced by the empty name, and a part whose name is empty then is passed
  over as if the request had no file.
* An exception that no handler catches ends the process: the state is marked
  as down and no later event is handled.
-/

namespace SafePrint

/-! ## Node's posix `path` functions -/

/-- Node `path.basename(p)` without suffix: the trailing separators are
skipped, then the characters after the last remaining separator are kept. -/
def basenameChars (p : List Char) : List Char :=
  ((p.reverse.dropWhile (· == '/')).takeWhile (· != '/')).reverse

/-- Node `path.basename` on strings. -/
def basename (p : String) : String :=
  String.mk (basenameChars p.data)

/-- The function `basename` that busboy applies to the declared name of a
part: what follows the last slash or backslash, and nothing for `.` and
`..`. -/
def busboyBasenameChars (p : List Char) : List Char :=
  let tail := (p.reverse.takeWhile (fun c => c != '/' && c != Char.ofNat 92)).reverse
  if tail = ['.', '.'] ∨ tail = ['.'] then [] else tail

/-- The name busboy reports for a part, on strings. -/
def busboyFilename (declared : String) : String :=
  String.mk (busboyBasenameChars declared.data)

/-- The pieces of a path between its separators (empty pieces included). -/
def splitSlash : List Char → List (List Char)
  | [] => [[]]
  | c :: cs =>
    if c = '/' then [] :: splitSlash cs
    else
      match splitSlash cs with
      | [] => [[c]]
      | s :: ss => (c :: s) :: ss

/-- One step of Node's `normalizeString` on the stack of kept segments (top
first): empty and `.` segments are skipped, `..` removes the segment above it
(or is kept when the path is relative and nothing can be removed), any other
segment is pushed. -/
def normStep (allowAboveRoot : Bool) (stack : List (List Char)) (seg : List Char) :
    List (List Char) :=
  if seg = [] ∨ seg = ['.'] then stack
  else if seg = ['.', '.'] then
    match stack with
    | top :: rest =>
      if top = ['.', '.'] then (if allowAboveRoot then seg :: stack else stack) else rest
    | [] => if allowAboveRoot then [seg] else []
  else seg :: stack

/-- The segments `normalizeString` keeps, in path order. -/
def normSegments (allowAboveRoot : Bool) (p : List Char) : List (List Char) :=
  ((splitSlash p).foldl (normStep allowAboveRoot) []).reverse

/-- Segments joined by the separator. -/
def joinSlash : List (List Char) → List Char
  | [] => []
  | [s] => s
  | s :: t :: ss => s ++ '/' :: joinSlash (t :: ss)

/-- Node `path.normalize`. -/
def normalizeChars (p : List Char) : List Char :=
  if p = [] then ['.']
  else
    let isAbsolute := p.head? = some '/'
    let trailingSeparator := p.getLast? = some '/'
    let body := joinSlash (normSegments (!decide isAbsolute) p)
    if body = [] then
      (if isAbsolute then ['/'] else if trailingSeparator then ['.', '/'] else ['.'])
    else
      (if isAbsolute then ['/'] else []) ++ body ++ (if trailingSeparator then ['/'] else [])

/-- Node `path.join`: the non-empty arguments are joined by the separator and
the result is normalised; with nothing to join the result is `.`. -/
def pathJoin (args : List String) : String :=
  match (args.map String.data).filter (fun a => a ≠ []) with
  | [] => "."
  | parts => String.mk (normalizeChars (joinSlash parts))

/-- The non-empty segments of a path. -/
def pathSegments (p : String) : List (List Char) :=
  (splitSlash p.data).filter (fun s => s ≠ [])

/-- A normalised path lies strictly inside a normalised directory: its
segments extend the directory's by at least one. -/
def strictlyInside (dir p : String) : Bool :=
  (pathSegments dir).isPrefixOf (pathSegments p) && pathSegments dir != pathSegments p

/-- The directory `uploadsDir = path.join(__dirname, 'uploads')`. -/
def uploadsDir (dirname : String) : String :=
  pathJoin [dirname, "uploads"]

/-- The directory `path.join(uploadsDir, sessionId)` of a session. -/
def sessionUploadPath (dirname sessionId : String) : String :=
  pathJoin [uploadsDir dirname, sessionId]

/-! ## Data model -/

/-- The object `fileData` built by the upload handler. -/
structure FileData where
  id : Nat
  name : String
  size : Nat
  timestamp : Nat
deriving DecidableEq, Repr

/-- A JavaScript value as far as the properties of a queue entry go. -/
inductive JsValue where
  | undefined
  | num (n : Nat)
  | str (s : String)
  | bool (b : Bool)
deriving DecidableEq, Repr

/-- Reading property `key` of a `fileData` object. -/
def FileData.prop (f : FileData) (key : String) : JsValue :=
  if key = "id" then .num f.id
  else if key = "name" then .str f.name
  else if key = "size" then .num f.size
  else if key = "timestamp" then .num f.timestamp
  else .undefined

/-- The session record inserted by the start-session handler. -/
structure Session where
  id : String
  containerId : Nat
  startTime : Nat
  files : List FileData
  fileCounter : Nat
deriving DecidableEq, Repr

/-- The own property `k` of `sessions`, if there is one. -/
def lookupSession : List (String × Session) → String → Option Session
  | [], _ => none
  | (k', s) :: rest, k => if k' = k then some s else lookupSession rest k

/-- The property names every plain object inherits from `Object.prototype`. -/
def objectPrototypeNames : List String :=
  ["constructor", "__defineGetter__", "__defineSetter__", "hasOwnProperty",
   "__lookupGetter__", "__lookupSetter__", "isPrototypeOf", "propertyIsEnumerable",
   "toString", "valueOf", "__proto__", "toLocaleString"]

/-- What a read `sessions[k]` finds: a session record stored under the own key
`k`, a member inherited from `Object.prototype` (truthy, and its `files`,
`containerId` and `fileCounter` are `undefined`), or `undefined`. -/
inductive Slot where
  | record (session : Session)
  | inherited
  | undefined
deriving DecidableEq, Repr

/-- The read `sessions[k]`. -/
def readSession (sessions : List (String × Session)) (k : String) : Slot :=
  match lookupSession sessions k with
  | some session => .record session
  | none => if k ∈ objectPrototypeNames then .inherited else .undefined

/-- The assignment `sessions[k] = v`. -/
def putSession : List (String × Session) → String → Session → List (String × Session)
  | [], k, v => [(k, v)]
  | (k', s) :: rest, k, v =>
    if k' = k then (k, v) :: rest else (k', s) :: putSession rest k v

/-- The statement `delete sessions[k]`: it removes an own key and does nothing
for any other name. -/
def deleteSession (ss : List (String × Session)) (k : String) : List (String × Session) :=
  ss.filter (fun p => p.1 ≠ k)

/-! ## The container engine -/

/-- A container as the server creates it. -/
structure Container where
  id : Nat
  session : String
  bind : String
  running : Bool
deriving DecidableEq, Repr

/-- The engine: the existing containers and the next id it will issue. -/
structure Engine where
  containers : List Container
  nextId : Nat
deriving DecidableEq, Repr

/-- Which engine call of `startSessionContainer` fails, if any. -/
inductive ProvisionFault where
  | none
  | pull
  | create
  | start
deriving DecidableEq, Repr

/-- Which engine call of `stopAndRemoveContainer` fails for a reason other
than a missing container, if any. -/
inductive ReleaseFault where
  | none
  | stop
  | remove
deriving DecidableEq, Repr

/-- The events the server emits, with their payloads. -/
inductive ServerEvent where
  | sessionStarted (sessionId qrCode uploadUrl : String)
  | sessionEnded
  | fileUploaded (file : FileData)
  | fileList (files : List FileData)
  | filePrinted (fileName : String)
  | error (message : String)
deriving DecidableEq, Repr

/-- The effects of a handler, in program order: emits to a room and to one
socket, an emit to one socket whose payload is `undefined`, `socket.join`, the
directory the session start ensures, the removal `fs.rm` is asked for, a
completed and a failed disk write of multer, the call of
`stopAndRemoveContainer` (with nothing for an `undefined` id), the call of
`printFileInContainer`, and an exception that nothing catches. -/
inductive Effect where
  | toRoom (room : String) (ev : ServerEvent)
  | toSocket (socket : Nat) (ev : ServerEvent)
  | emitUndefined (socket : Nat) (event : String)
  | join (socket : Nat) (room : String)
  | ensureDir (path : String)
  | rm (path : String)
  | write (path : String) (size : Nat)
  | writeFailed (path : String)
  | release (containerId : Option Nat)
  | print (containerId : Nat) (fileName : String)
  | uncaught (error : String)
deriving DecidableEq, Repr

/-- The function `startSessionContainer`: the session directory is ensured,
then the image is pulled, the container created and started; the first
failing call is rethrown. -/
def startSessionContainer (dirname : String) (docker : Engine) (sessionId : String)
    (fault : ProvisionFault) : Engine × Except String Nat × List Effect :=
  let sessionUploadPath := pathJoin [uploadsDir dirname, sessionId]
  let effs := [Effect.ensureDir sessionUploadPath]
  match fault with
  | .pull => (docker, .error "pull", effs)
  | .create => (docker, .error "create", effs)
  | .start =>
    ({ containers := docker.containers ++
          [{ id := docker.nextId, session := sessionId, bind := sessionUploadPath,
             running := false }],
       nextId := docker.nextId + 1 }, .error "start", effs)
  | .none =>
    ({ containers := docker.containers ++
          [{ id := docker.nextId, session := sessionId, bind := sessionUploadPath,
             running := true }],
       nextId := docker.nextId + 1 }, .ok docker.nextId, effs)

/-- The function `stopAndRemoveContainer`: stop, then remove; every error is
caught (a missing container is reported as already removed), so the call
always returns. -/
def stopAndRemoveContainer (docker : Engine) (containerId : Nat) (fault : ReleaseFault) :
    Engine :=
  if docker.containers.any (fun c => c.id = containerId) then
    match fault with
    | .stop => docker
    | .remove =>
      let stopped := docker.containers.map
        (fun c => if c.id = containerId then { c with running := false } else c)
      { docker with containers := stopped }
    | .none =>
      { docker with containers := docker.containers.filter (fun c => c.id ≠ containerId) }
  else docker

/-! ## Server state -/

/-- The state of the server process: the session store, the room membership
kept by Socket.IO, the container engine it drives, and whether an uncaught
exception has ended the process. -/
structure Server where
  sessions : List (String × Session)
  rooms : List (Nat × String)
  docker : Engine
  down : Bool
deriving DecidableEq, Repr

/-- The state at process start. -/
def Server.init : Server :=
  { sessions := [], rooms := [], docker := { containers := [], nextId := 0 }, down := false }

/-- The call `socket.join(room)`. -/
def joinRoom (rooms : List (Nat × String)) (socket : Nat) (room : String) :
    List (Nat × String) :=
  if (socket, room) ∈ rooms then rooms else rooms ++ [(socket, room)]

/-! ## The upload pipeline -/

/-- The part `file` of a multipart request: the file name it declares and
the number of bytes it carries. -/
structure FilePart where
  declaredName : String
  size : Nat
deriving DecidableEq, Repr

/-- The object `file` multer hands to the storage callbacks. -/
structure IncomingFile where
  originalname : String
deriving DecidableEq, Repr

/-- The object `req.file` left by multer's disk storage. -/
structure StoredFile where
  filename : String
  size : Nat
  destination : String
  path : String
deriving DecidableEq, Repr

/-- A request `POST /upload`. -/
structure UploadRequest where
  sessionId : Option String
  file : Option FilePart
deriving DecidableEq, Repr

/-- The HTTP answer: a JSON body written by the route handler, or the answer
of Express's default error handler to an error passed on by a middleware or
thrown by the route handler. -/
inductive Response where
  | json (status : Nat) (message : String) (ticketNumber : Option Nat)
  | failure (status : Nat) (error : String)
deriving DecidableEq, Repr

/-- The status code of an answer. -/
def Response.status : Response → Nat
  | .json s _ _ => s
  | .failure s _ => s

/-- The key under which `sessions[req.query.sessionId]` is read: a missing
parameter is the key `undefined`. -/
def queryKey (sessionId : Option String) : String :=
  sessionId.getD "undefined"

/-- The `destination` callback of the disk storage: the test
`!sessionId || !sessions[sessionId]` fails for a record and for an inherited
member alike. -/
def destination (dirname : String) (sessions : List (String × Session))
    (sessionId : Option String) : Except String String :=
  match sessionId with
  | none => .error "Invalid or expired session."
  | some sid =>
    if sid = "" ∨ readSession sessions sid = .undefined then
      .error "Invalid or expired session."
    else .ok (pathJoin [uploadsDir dirname, sid])

/-- The `filename` callback of the disk storage. -/
def filename (file : IncomingFile) : String :=
  basename file.originalname

/-- The middleware `upload.single('file')`: without a file part, or with a
part whose name busboy reports as empty, the request is passed on without
`req.file`; otherwise the destination and the file name are asked for with
`originalname` the name busboy reports, the bytes are written to their join
and `req.file` is set; an error of a callback or of the write is passed to
Express. -/
def uploadSingle (dirname : String) (sessions : List (String × Session))
    (req : UploadRequest) (writeOk : Bool) : Except String (Option StoredFile) × List Effect :=
  match req.file with
  | none => (.ok none, [])
  | some part =>
    if busboyFilename part.declaredName = "" then (.ok none, [])
    else
      match destination dirname sessions req.sessionId with
      | .error e => (.error e, [])
      | .ok dest =>
        let name := filename { originalname := busboyFilename part.declaredName }
        let finalPath := pathJoin [dest, name]
        if writeOk then
          (.ok (some { filename := name, size := part.size, destination := dest,
                       path := finalPath }), [Effect.write finalPath part.size])
        else (.error "write", [Effect.writeFailed finalPath])

/-- The route handler of `POST /upload`. For an inherited member the checks
`!session` and `!file` pass like for a record, then `session.files.push`
throws a TypeError (`files` is `undefined`), which Express answers with
status 500; the store is not touched. -/
def uploadHandler (st : Server) (sessionId : Option String) (file : Option StoredFile)
    (now : Nat) : Server × Response × List Effect :=
  match readSession st.sessions (queryKey sessionId) with
  | .undefined => (st, .json 404 "Session not found or has expired." none, [])
  | .inherited =>
    match file with
    | none => (st, .json 400 "File upload failed." none, [])
    | some _ => (st, .failure 500 "TypeError", [])
  | .record session =>
    match file with
    | none => (st, .json 400 "File upload failed." none, [])
    | some file =>
      let ticketNumber := session.fileCounter
      let fileData : FileData :=
        { id := ticketNumber, name := file.filename, size := file.size, timestamp := now }
      let session' : Session :=
        { session with fileCounter := session.fileCounter + 1,
                       files := session.files ++ [fileData] }
      ({ st with sessions := putSession st.sessions (queryKey sessionId) session' },
       .json 200 "File sent to the counter!" (some ticketNumber),
       [Effect.toRoom (queryKey sessionId) (.fileUploaded fileData)])

/-- The route `POST /upload`: the multer middleware, then the handler; an
error of the middleware is answered by Express with status 500 and the
handler does not run. -/
def postUpload (dirname : String) (st : Server) (req : UploadRequest) (writeOk : Bool)
    (now : Nat) : Server × Response × List Effect :=
  match uploadSingle dirname st.sessions req writeOk with
  | (.error e, effs) => (st, .failure 500 e, effs)
  | (.ok file, effs) =>
    let r := uploadHandler st req.sessionId file now
    (r.1, r.2.1, effs ++ r.2.2)

/-! ## Socket.IO handlers -/

/-- The handler of `join-session`. An inherited member passes the test
`if (sessions[sessionId])`: the socket joins the room and is sent `file-list`
with the `undefined` value of `files`. -/
def joinSession (st : Server) (socket : Nat) (sessionId : String) : Server × List Effect :=
  match readSession st.sessions sessionId with
  | .record session =>
    ({ st with rooms := joinRoom st.rooms socket sessionId },
     [Effect.join socket sessionId, Effect.toSocket socket (.fileList session.files)])
  | .inherited =>
    ({ st with rooms := joinRoom st.rooms socket sessionId },
     [Effect.join socket sessionId, Effect.emitUndefined socket "file-list"])
  | .undefined =>
    (st, [Effect.toSocket socket
      (.error ("Session " ++ sessionId ++ " does not exist."))])

/-- The session id minted by `start-session` from `Date.now()`. -/
def mintSessionId (now : Nat) : String :=
  "session-" ++ toString now

/-- The upload link encoded in the QR code. -/
def uploadUrlOf (sessionId : String) : String :=
  "http://172.20.10.2:5173/upload?sessionId=" ++ sessionId

/-- The handler of `start-session`. The clock reads `now` for the id and
`startTime` for the record; `qr` is the data URL returned by the QR encoder,
or nothing when it fails. -/
def startSession (dirname : String) (st : Server) (socket : Nat) (now startTime : Nat)
    (fault : ProvisionFault) (qr : Option String) : Server × List Effect :=
  let sessionId := mintSessionId now
  let failed := Effect.toSocket socket
    (.error "Failed to start Docker container. Is Docker running?")
  match startSessionContainer dirname st.docker sessionId fault with
  | (docker', .error _, effs) => ({ st with docker := docker' }, effs ++ [failed])
  | (docker', .ok containerId, effs) =>
    let uploadUrl := uploadUrlOf sessionId
    match qr with
    | none => ({ st with docker := docker' }, effs ++ [failed])
    | some qrCodeDataUrl =>
      let session : Session :=
        { id := sessionId, containerId := containerId, startTime := startTime, files := [],
          fileCounter := 1 }
      ({ sessions := putSession st.sessions sessionId session,
         rooms := joinRoom st.rooms socket sessionId,
         docker := docker',
         down := st.down },
       effs ++ [Effect.join socket sessionId,
                Effect.toSocket socket (.sessionStarted sessionId qrCodeDataUrl uploadUrl)])

/-- The handler of `end-session`. An inherited member passes the test
`if (session)`: `stopAndRemoveContainer` is called with the `undefined` value
of `containerId` (the engine knows no such container, which the function
reports and returns), the removal of the directory is asked for,
`session-ended` is sent to the room, and the `delete` finds no own key. -/
def endSession (dirname : String) (st : Server) (sessionId : String) (fault : ReleaseFault) :
    Server × List Effect :=
  match readSession st.sessions sessionId with
  | .record session =>
    ({ sessions := deleteSession st.sessions sessionId,
       rooms := st.rooms,
       docker := stopAndRemoveContainer st.docker session.containerId fault,
       down := st.down },
     [Effect.release (some session.containerId),
      Effect.rm (pathJoin [uploadsDir dirname, sessionId]),
      Effect.toRoom sessionId .sessionEnded])
  | .inherited =>
    (st,
     [Effect.release none,
      Effect.rm (pathJoin [uploadsDir dirname, sessionId]),
      Effect.toRoom sessionId .sessionEnded])
  | .undefined => (st, [])

/-- The handler of `print-file`. For an inherited member `session` is truthy
and `session.files.some` throws a TypeError (`files` is `undefined`); nothing
catches it, so the process ends. -/
def printFile (st : Server) (sessionId fileName : String) : Server × List Effect :=
  match readSession st.sessions sessionId with
  | .record session =>
    if session.files.any (fun f => f.name = fileName) then
      (st, [Effect.print session.containerId fileName,
            Effect.toRoom sessionId (.filePrinted fileName)])
    else (st, [])
  | .inherited => ({ st with down := true }, [Effect.uncaught "TypeError"])
  | .undefined => (st, [])

/-- The handler of `get-session-files`. -/
def getSessionFiles (st : Server) (socket : Nat) (sessionId : String) : Server × List Effect :=
  match readSession st.sessions sessionId with
  | .record session => (st, [Effect.toSocket socket (.fileList session.files)])
  | .inherited => (st, [Effect.emitUndefined socket "file-list"])
  | .undefined => (st, [])

/-! ## Runs of the server -/

/-- What reaches the server, with the data the environment supplies. -/
inductive Event where
  | startSession (socket : Nat) (now startTime : Nat) (fault : ProvisionFault)
      (qr : Option String)
  | upload (req : UploadRequest) (writeOk : Bool) (now : Nat)
  | printFile (sessionId fileName : String)
  | joinSession (socket : Nat) (sessionId : String)
  | getSessionFiles (socket : Nat) (sessionId : String)
  | endSession (sessionId : String) (fault : ReleaseFault)
deriving DecidableEq, Repr

/-- The handler run for an event. -/
def handle (dirname : String) (st : Server) : Event → Server × List Effect
  | .startSession socket now startTime fault qr =>
    startSession dirname st socket now startTime fault qr
  | .upload req writeOk now =>
    let r := postUpload dirname st req writeOk now
    (r.1, r.2.2)
  | .printFile sessionId fileName => printFile st sessionId fileName
  | .joinSession socket sessionId => joinSession st socket sessionId
  | .getSessionFiles socket sessionId => getSessionFiles st socket sessionId
  | .endSession sessionId fault => endSession dirname st sessionId fault

/-- One event: the new state and the effects of its handler; once the process
is down nothing is handled. -/
def step (dirname : String) (st : Server) (e : Event) : Server × List Effect :=
  if st.down then (st, []) else handle dirname st e

/-- The state after a sequence of events. -/
def run (dirname : String) (st : Server) : List Event → Server
  | [] => st
  | e :: es => run dirname (step dirname st e).1 es

/-- The upload is one to session `sid` that the running process answers with
200. -/
def acceptedUpload (dirname : String) (st : Server) (sid : String) : Event → Bool
  | .upload req writeOk now =>
    !st.down && decide (queryKey req.sessionId = sid) &&
      decide ((postUpload dirname st req writeOk now).2.1.status = 200)
  | _ => false

/-- The number of accepted uploads to `sid` in a run. -/
def countAccepted (dirname : String) (sid : String) : Server → List Event → Nat
  | _, [] => 0
  | st, e :: es =>
    (if acceptedUpload dirname st sid e then 1 else 0) +
      countAccepted dirname sid (step dirname st e).1 es

/-- The event creates or removes the record stored under `sid`. -/
def touchesLifecycle (sid : String) : Event → Bool
  | .startSession _ now _ _ _ => decide (mintSessionId now = sid)
  | .endSession sessionId _ => decide (sessionId = sid)
  | _ => false

/-! ## The dashboard's printed state (`AdminDashboard.jsx`) -/

/-- The React state of the dashboard that the queue display reads. -/
structure Dashboard where
  files : List FileData
  printedFiles : List String
deriving DecidableEq, Repr

/-- The dashboard's listener for each server event. -/
def Dashboard.on (d : Dashboard) : ServerEvent → Dashboard
  | .sessionStarted _ _ _ => { files := [], printedFiles := [] }
  | .sessionEnded => { files := [], printedFiles := [] }
  | .fileUploaded file => { d with files := d.files ++ [file] }
  | .fileList files => { d with files := files }
  | .filePrinted fileName =>
    { d with printedFiles :=
        if fileName ∈ d.printedFiles then d.printedFiles else d.printedFiles ++ [fileName] }
  | .error _ => d

/-- The test `printedFiles.has(file.name)` that marks a row as printed. -/
def Dashboard.shownPrinted (d : Dashboard) (file : FileData) : Bool :=
  decide (file.name ∈ d.printedFiles)

/-! ## Predicates used by the statements -/

/-- The queue entry the upload handler builds for a stored file. -/
def ticketFor (s : Session) (name : String) (size now : Nat) : FileData :=
  { id := s.fileCounter, name := name, size := size, timestamp := now }

/-- The session record after the upload handler has accepted a file. -/
def withTicket (s : Session) (name : String) (size now : Nat) : Session :=
  { s with fileCounter := s.fileCounter + 1, files := s.files ++ [ticketFor s name size now] }

/-- The record the start-session handler inserts. -/
def freshSession (sessionId : String) (containerId startTime : Nat) : Session :=
  { id := sessionId, containerId := containerId, startTime := startTime, files := [],
    fileCounter := 1 }

/-- The container `startSessionContainer` creates. -/
def containerFor (dirname sessionId : String) (id : Nat) (running : Bool) : Container :=
  { id := id, session := sessionId, bind := pathJoin [uploadsDir dirname, sessionId],
    running := running }

/-- Ticket numbering of a session record: the ids of `files` count up from 1
and the counter is one past the number of entries. -/
def Numbered (s : Session) : Prop :=
  s.files.map FileData.id = List.range' 1 s.files.length ∧
    s.fileCounter = s.files.length + 1

/-- A path segment that `path.join` appends as it is: not empty, without a
separator, and neither `.` nor `..`. -/
def GoodSegment (x : List Char) : Prop :=
  x ≠ [] ∧ '/' ∉ x ∧ x ≠ ['.'] ∧ x ≠ ['.', '.']

/-- No two records of the store share an id, a container id or a storage
path. -/
def Separate (dirname : String) (sessions : List (String × Session)) : Prop :=
  sessions.Pairwise (fun p q =>
    p.1 ≠ q.1 ∧ p.2.containerId ≠ q.2.containerId ∧
      sessionUploadPath dirname p.1 ≠ sessionUploadPath dirname q.1)

/-- The invariant behind `Separate`: ids and container ids are pairwise
distinct, every container id has been issued by the engine, and every id is a
plain path segment. -/
def StoreInv (st : Server) : Prop :=
  st.sessions.Pairwise (fun p q => p.1 ≠ q.1 ∧ p.2.containerId ≠ q.2.containerId) ∧
    (∀ p ∈ st.sessions, p.2.containerId < st.docker.nextId) ∧
    (∀ p ∈ st.sessions, GoodSegment p.1.data)

/-- The event is a start-session whose clock reading mints the id `sid`. -/
def mints (sid : String) : Event → Bool
  | .startSession _ now _ _ _ => decide (mintSessionId now = sid)
  | _ => false

/-- The effect is an event sent to a room or to a socket. -/
def Effect.isEmit : Effect → Bool
  | .toRoom _ _ => true
  | .toSocket _ _ => true
  | .emitUndefined _ _ => true
  | _ => false

/-- The events a handler sends, in order. -/
def emitted (effs : List Effect) : List Effect :=
  effs.filter Effect.isEmit

/-! ## A concrete run used to exercise the statements -/

/-- The directory of `server.js` in the concrete run. -/
def demoDir : String := "/srv/safe-print/backend"

/-- The id minted at clock reading 1700000000000. -/
def demoId : String := "session-1700000000000"

/-- A shopkeeper (socket 7) starts a session at clock reading 1700000000000. -/
def demoStart : Event :=
  .startSession 7 1700000000000 1700000000002 .none (some "data:image/png;base64,iVBORw0KGgo=")

/-- A customer uploads `name` of `size` bytes to the session `sid`. -/
def demoUpload (sid name : String) (size now : Nat) : Event :=
  .upload { sessionId := some sid, file := some { declaredName := name, size := size } } true now

/-- The state after the session has been started. -/
def demoStarted : Server :=
  run demoDir Server.init [demoStart]

/-- The record of the started session. -/
def demoRecord : Session :=
  { id := demoId, containerId := 0, startTime := 1700000000002, files := [], fileCounter := 1 }

/-- The state after `a.pdf` and `b.pdf` have been uploaded. -/
def demoQueued : Server :=
  run demoDir demoStarted
    [demoUpload demoId "a.pdf" 1024 1700000000100, demoUpload demoId "b.pdf" 2048 1700000000200]

/-- The queue entry of `a.pdf`. -/
def demoEntryA : FileData :=
  { id := 1, name := "a.pdf", size := 1024, timestamp := 1700000000100 }

/-- The queue entry of `b.pdf`. -/
def demoEntryB : FileData :=
  { id := 2, name := "b.pdf", size := 2048, timestamp := 1700000000200 }

/-- The state after a second shopkeeper (socket 8) has started a session at
clock reading 1700000000500 and `a.pdf` has been uploaded to it as well. -/
def demoTwoShops : Server :=
  run demoDir demoQueued
    [.startSession 8 1700000000500 1700000000502 .none
        (some "data:image/png;base64,iVBORw0KGgo="),
     demoUpload "session-1700000000500" "a.pdf" 1024 1700000000600]

/-! ## The session store -/

theorem lookupSession_some_mem {ss : List (String × Session)} {k : String} {s : Session}
    (h : lookupSession ss k = some s) : (k, s) ∈ ss := by
  induction ss with
  | nil => simp [lookupSession] at h
  | cons p rest ih =>
    obtain ⟨k', s'⟩ := p
    by_cases hk : k' = k
    · simp [lookupSession, hk] at h
      simp [hk, h]
    · simp [lookupSession, hk] at h
      exact List.mem_cons_of_mem _ (ih h)

theorem lookupSession_none_iff {ss : List (String × Session)} {k : String} :
    lookupSession ss k = none ↔ ∀ p ∈ ss, p.1 ≠ k := by
  induction ss with
  | nil => simp [lookupSession]
  | cons p rest ih =>
    obtain ⟨k', s'⟩ := p
    by_cases hk : k' = k
    · simp [lookupSession, hk]
    · simp [lookupSession, hk, ih]

theorem lookupSession_putSession_same (ss : List (String × Session)) (k : String)
    (v : Session) : lookupSession (putSession ss k v) k = some v := by
  induction ss with
  | nil => simp [putSession, lookupSession]
  | cons p rest ih =>
    obtain ⟨k', s'⟩ := p
    by_cases hk : k' = k
    · simp [putSession, lookupSession, hk]
    · simp [putSession, lookupSession, hk, ih]

theorem lookupSession_putSession_other (ss : List (String × Session)) {k k' : String}
    (v : Session) (h : k' ≠ k) :
    lookupSession (putSession ss k v) k' = lookupSession ss k' := by
  induction ss with
  | nil => simp [putSession, lookupSession, Ne.symm h]
  | cons p rest ih =>
    obtain ⟨k₀, s₀⟩ := p
    by_cases hk : k₀ = k
    · subst hk
      simp [putSession, lookupSession, Ne.symm h]
    · by_cases hk' : k₀ = k'
      · subst hk'
        simp [putSession, lookupSession, hk]
      · simp [putSession, lookupSession, hk, hk', ih]

theorem mem_putSession {ss : List (String × Session)} {k : String} {v : Session}
    {p : String × Session} (h : p ∈ putSession ss k v) : p ∈ ss ∨ p = (k, v) := by
  induction ss with
  | nil => simpa [putSession] using h
  | cons q rest ih =>
    obtain ⟨k', s'⟩ := q
    by_cases hk : k' = k
    · simp [putSession, hk] at h
      rcases h with h | h
      · exact Or.inr h
      · exact Or.inl (List.mem_cons_of_mem _ h)
    · simp only [putSession, hk, if_false, List.mem_cons] at h
      rcases h with h | h
      · exact Or.inl (by simp [h])
      · rcases ih h with h' | h'
        · exact Or.inl (List.mem_cons_of_mem _ h')
        · exact Or.inr h'

theorem putSession_of_lookup_none {ss : List (String × Session)} {k : String} (v : Session)
    (h : lookupSession ss k = none) : putSession ss k v = ss ++ [(k, v)] := by
  induction ss with
  | nil => simp [putSession]
  | cons p rest ih =>
    obtain ⟨k', s'⟩ := p
    by_cases hk : k' = k
    · simp [lookupSession, hk] at h
    · simp [lookupSession, hk] at h
      simp [putSession, hk, ih h]

theorem mem_deleteSession {ss : List (String × Session)} {k : String}
    {p : String × Session} (h : p ∈ deleteSession ss k) : p ∈ ss ∧ p.1 ≠ k := by
  simpa [deleteSession] using h

theorem lookupSession_deleteSession_same (ss : List (String × Session)) (k : String) :
    lookupSession (deleteSession ss k) k = none := by
  rw [lookupSession_none_iff]
  intro p hp
  exact (mem_deleteSession hp).2

theorem deleteSession_cons (k₀ : String) (s₀ : Session) (rest : List (String × Session))
    (k : String) :
    deleteSession ((k₀, s₀) :: rest) k =
      if k₀ = k then deleteSession rest k else (k₀, s₀) :: deleteSession rest k := by
  by_cases hk : k₀ = k <;> simp [deleteSession, List.filter_cons, hk]

theorem lookupSession_deleteSession_other (ss : List (String × Session)) {k k' : String}
    (h : k' ≠ k) : lookupSession (deleteSession ss k) k' = lookupSession ss k' := by
  induction ss with
  | nil => simp [deleteSession, lookupSession]
  | cons p rest ih =>
    obtain ⟨k₀, s₀⟩ := p
    rw [deleteSession_cons]
    by_cases hk : k₀ = k
    · subst hk
      simp [lookupSession, Ne.symm h, ih]
    · by_cases hk' : k₀ = k'
      · subst hk'
        simp [lookupSession, hk]
      · simp [lookupSession, hk, hk', ih]

theorem deleteSession_of_lookup_none {ss : List (String × Session)} {k : String}
    (h : lookupSession ss k = none) : deleteSession ss k = ss := by
  rw [lookupSession_none_iff] at h
  simp only [deleteSession]
  rw [List.filter_eq_self]
  intro p hp
  simpa using h p hp

theorem readSession_of_lookup {ss : List (String × Session)} {k : String} {s : Session}
    (h : lookupSession ss k = some s) : readSession ss k = .record s := by
  simp [readSession, h]

theorem lookup_of_readSession_record {ss : List (String × Session)} {k : String} {s : Session}
    (h : readSession ss k = .record s) : lookupSession ss k = some s := by
  unfold readSession at h
  cases hl : lookupSession ss k with
  | none =>
    rw [hl] at h
    by_cases hk : k ∈ objectPrototypeNames <;> simp [hk] at h
  | some s' =>
    rw [hl] at h
    simp only [Slot.record.injEq] at h
    rw [h]

theorem lookup_of_readSession_undefined {ss : List (String × Session)} {k : String}
    (h : readSession ss k = .undefined) : lookupSession ss k = none := by
  unfold readSession at h
  cases hl : lookupSession ss k with
  | none => rfl
  | some s' =>
    rw [hl] at h
    cases h

theorem lookup_of_readSession_inherited {ss : List (String × Session)} {k : String}
    (h : readSession ss k = .inherited) : lookupSession ss k = none := by
  unfold readSession at h
  cases hl : lookupSession ss k with
  | none => rfl
  | some s' =>
    rw [hl] at h
    cases h

/-! ## The handlers, case by case -/

theorem uploadHandler_notFound {st : Server} {sessionId : Option String}
    (file : Option StoredFile) (now : Nat)
    (h : readSession st.sessions (queryKey sessionId) = .undefined) :
    uploadHandler st sessionId file now =
      (st, .json 404 "Session not found or has expired." none, []) := by
  simp [uploadHandler, h]

theorem uploadHandler_inherited {st : Server} {sessionId : Option String}
    (file : Option StoredFile) (now : Nat)
    (h : readSession st.sessions (queryKey sessionId) = .inherited) :
    uploadHandler st sessionId file now =
      (st,
       (match file with
        | none => Response.json 400 "File upload failed." none
        | some _ => Response.failure 500 "TypeError"),
       []) := by
  cases file <;> simp [uploadHandler, h]

theorem uploadHandler_noFile {st : Server} {sessionId : Option String} {s : Session}
    (now : Nat) (h : lookupSession st.sessions (queryKey sessionId) = some s) :
    uploadHandler st sessionId none now = (st, .json 400 "File upload failed." none, []) := by
  simp [uploadHandler, readSession_of_lookup h]

theorem uploadHandler_accepted {st : Server} {sessionId : Option String} {s : Session}
    (file : StoredFile) (now : Nat)
    (h : lookupSession st.sessions (queryKey sessionId) = some s) :
    uploadHandler st sessionId (some file) now =
      ({ st with
          sessions :=
            putSession st.sessions (queryKey sessionId)
              (withTicket s file.filename file.size now) },
       .json 200 "File sent to the counter!" (some s.fileCounter),
       [Effect.toRoom (queryKey sessionId)
          (.fileUploaded (ticketFor s file.filename file.size now))]) := by
  simp [uploadHandler, readSession_of_lookup h, withTicket, ticketFor]

/-- What the multer stage leaves: an error with the effects so far, no file
and no effect, or a stored file and its write. -/
theorem uploadSingle_cases (dirname : String) (sessions : List (String × Session))
    (req : UploadRequest) (writeOk : Bool) :
    (∃ e effs, uploadSingle dirname sessions req writeOk = (.error e, effs) ∧
      ∀ x ∈ effs, x.isEmit = false) ∨
    uploadSingle dirname sessions req writeOk = (.ok none, []) ∨
    (∃ (part : FilePart) (dest : String) (f : StoredFile) (effs : List Effect),
      req.file = some part ∧ busboyFilename part.declaredName ≠ "" ∧
      destination dirname sessions req.sessionId = .ok dest ∧ writeOk = true ∧
      f.filename = filename { originalname := busboyFilename part.declaredName } ∧
      f.size = part.size ∧ f.destination = dest ∧
      f.path = pathJoin [dest, f.filename] ∧
      effs = [Effect.write f.path f.size] ∧
      uploadSingle dirname sessions req writeOk = (.ok (some f), effs)) := by
  unfold uploadSingle
  cases hf : req.file with
  | none => exact Or.inr (Or.inl rfl)
  | some part =>
    by_cases hname : busboyFilename part.declaredName = ""
    · exact Or.inr (Or.inl (by simp [hname]))
    · cases hd : destination dirname sessions req.sessionId with
      | error e => exact Or.inl ⟨e, [], by simp [hname], by simp⟩
      | ok dest =>
        cases writeOk with
        | true =>
          exact Or.inr (Or.inr ⟨part, dest,
            { filename := filename { originalname := busboyFilename part.declaredName },
              size := part.size, destination := dest,
              path := pathJoin [dest,
                filename { originalname := busboyFilename part.declaredName }] },
            [Effect.write
              (pathJoin [dest, filename { originalname := busboyFilename part.declaredName }])
              part.size],
            rfl, hname, rfl, rfl, rfl, rfl, rfl, rfl, rfl, by simp [hname]⟩)
        | false =>
          refine Or.inl ⟨"write",
            [Effect.writeFailed
              (pathJoin [dest, filename { originalname := busboyFilename part.declaredName }])],
            by simp [hname], ?_⟩
          intro x hx
          simp only [List.mem_singleton] at hx
          rw [hx]
          rfl

/-- The three ways `POST /upload` ends: Express answers an error with 500
(nothing changes), the handler rejects (404 or 400, nothing changes), or the
handler accepts (200, one entry is appended to the session named by the
request). -/
theorem postUpload_cases (dirname : String) (st : Server) (req : UploadRequest)
    (writeOk : Bool) (now : Nat) :
    (∃ e effs, postUpload dirname st req writeOk now = (st, .failure 500 e, effs)) ∨
    (∃ status msg, status ≠ 200 ∧
      postUpload dirname st req writeOk now = (st, .json status msg none, [])) ∨
    (∃ (s : Session) (file : StoredFile) (effs : List Effect),
      lookupSession st.sessions (queryKey req.sessionId) = some s ∧
      postUpload dirname st req writeOk now =
        ({ st with
            sessions :=
              putSession st.sessions (queryKey req.sessionId)
                (withTicket s file.filename file.size now) },
         .json 200 "File sent to the counter!" (some s.fileCounter),
         effs ++ [Effect.toRoom (queryKey req.sessionId)
            (.fileUploaded (ticketFor s file.filename file.size now))])) := by
  unfold postUpload
  rcases uploadSingle_cases dirname st.sessions req writeOk with
    ⟨e, effs, hres, _⟩ | hres | ⟨part, dest, f, effs, _, _, hdest, _, _, _, _, _, _, hres⟩
  · rw [hres]
    exact Or.inl ⟨e, effs, rfl⟩
  · rw [hres]
    right
    left
    cases hslot : readSession st.sessions (queryKey req.sessionId) with
    | undefined =>
      exact ⟨404, "Session not found or has expired.", by decide,
        by simp [uploadHandler_notFound none now hslot]⟩
    | inherited =>
      exact ⟨400, "File upload failed.", by decide,
        by simp [uploadHandler_inherited none now hslot]⟩
    | record s =>
      exact ⟨400, "File upload failed.", by decide,
        by simp [uploadHandler_noFile now (lookup_of_readSession_record hslot)]⟩
  · rw [hres]
    cases hslot : readSession st.sessions (queryKey req.sessionId) with
    | undefined =>
      exfalso
      unfold destination at hdest
      cases hq : req.sessionId with
      | none => simp [hq] at hdest
      | some sid =>
        simp only [hq, queryKey, Option.getD_some] at hslot
        simp [hq, hslot] at hdest
    | inherited =>
      left
      exact ⟨"TypeError", effs, by simp [uploadHandler_inherited (some f) now hslot]⟩
    | record s =>
      right
      right
      exact ⟨s, f, effs, lookup_of_readSession_record hslot,
        by simp [uploadHandler_accepted f now (lookup_of_readSession_record hslot)]⟩

theorem startSession_cases (dirname : String) (st : Server) (socket now startTime : Nat)
    (fault : ProvisionFault) (qr : Option String) :
    ((fault ≠ .none ∨ qr = none) ∧
      (startSession dirname st socket now startTime fault qr).1.sessions = st.sessions) ∨
    (∃ q, fault = .none ∧ qr = some q ∧
      startSession dirname st socket now startTime fault qr =
        ({ sessions :=
             putSession st.sessions (mintSessionId now)
               (freshSession (mintSessionId now) st.docker.nextId startTime),
           rooms := joinRoom st.rooms socket (mintSessionId now),
           docker :=
             { containers :=
                 st.docker.containers ++
                   [containerFor dirname (mintSessionId now) st.docker.nextId true],
               nextId := st.docker.nextId + 1 },
           down := st.down },
         [Effect.ensureDir (sessionUploadPath dirname (mintSessionId now)),
          Effect.join socket (mintSessionId now),
          Effect.toSocket socket
            (.sessionStarted (mintSessionId now) q (uploadUrlOf (mintSessionId now)))])) := by
  cases fault <;> cases qr <;>
    simp [startSession, startSessionContainer, freshSession, containerFor, sessionUploadPath]

theorem printFile_sessions (st : Server) (sid fileName : String) :
    (printFile st sid fileName).1.sessions = st.sessions ∧
      (printFile st sid fileName).1.docker = st.docker := by
  simp only [printFile]
  split
  · split <;> exact ⟨rfl, rfl⟩
  · exact ⟨rfl, rfl⟩
  · exact ⟨rfl, rfl⟩

theorem joinSession_sessions (st : Server) (socket : Nat) (sid : String) :
    (joinSession st socket sid).1.sessions = st.sessions ∧
      (joinSession st socket sid).1.docker = st.docker := by
  simp only [joinSession]
  split <;> exact ⟨rfl, rfl⟩

theorem getSessionFiles_state (st : Server) (socket : Nat) (sid : String) :
    (getSessionFiles st socket sid).1 = st := by
  simp only [getSessionFiles]
  split <;> rfl

theorem endSession_cases (dirname : String) (st : Server) (sid : String)
    (fault : ReleaseFault) :
    (endSession dirname st sid fault).1 = st ∨
    (∃ s, lookupSession st.sessions sid = some s ∧
      (endSession dirname st sid fault).1.sessions = deleteSession st.sessions sid ∧
      (endSession dirname st sid fault).1.docker =
        stopAndRemoveContainer st.docker s.containerId fault) := by
  cases hslot : readSession st.sessions sid with
  | undefined => exact Or.inl (by simp [endSession, hslot])
  | inherited => exact Or.inl (by simp [endSession, hslot])
  | record s =>
    exact Or.inr ⟨s, lookup_of_readSession_record hslot, by simp [endSession, hslot],
      by simp [endSession, hslot]⟩

/-- How one event changes the store: not at all, by inserting a fresh record
under a minted id, by appending one entry to a live session, or by deleting a
key. -/
theorem step_sessions (dirname : String) (st : Server) (e : Event) :
    (step dirname st e).1.sessions = st.sessions ∨
    (∃ now startTime, mints (mintSessionId now) e = true ∧
      (step dirname st e).1.sessions =
        putSession st.sessions (mintSessionId now)
          (freshSession (mintSessionId now) st.docker.nextId startTime)) ∨
    (∃ k s name size now, lookupSession st.sessions k = some s ∧
      acceptedUpload dirname st k e = true ∧
      (step dirname st e).1.sessions =
        putSession st.sessions k (withTicket s name size now)) ∨
    (∃ k fault, e = .endSession k fault ∧
      (step dirname st e).1.sessions = deleteSession st.sessions k) := by
  by_cases hdown : st.down = true
  · exact Or.inl (by simp [step, hdown])
  have hstep : step dirname st e = handle dirname st e := by simp [step, hdown]
  rw [hstep]
  cases e with
  | startSession socket now startTime fault qr =>
    rcases startSession_cases dirname st socket now startTime fault qr with h | ⟨q, _, _, h⟩
    · exact Or.inl h.2
    · exact Or.inr (Or.inl ⟨now, startTime, by simp [mints], by simp [handle, h]⟩)
  | upload req writeOk now =>
    rcases postUpload_cases dirname st req writeOk now with
      ⟨e, effs, h⟩ | ⟨status, msg, _, h⟩ | ⟨s, file, effs, hl, h⟩
    · exact Or.inl (by simp [handle, h])
    · exact Or.inl (by simp [handle, h])
    · exact Or.inr (Or.inr (Or.inl ⟨queryKey req.sessionId, s, file.filename, file.size, now,
        hl, by simp [acceptedUpload, hdown, h, Response.status], by simp [handle, h]⟩))
  | printFile sessionId fileName =>
    exact Or.inl (printFile_sessions st sessionId fileName).1
  | joinSession socket sessionId =>
    exact Or.inl (joinSession_sessions st socket sessionId).1
  | getSessionFiles socket sessionId =>
    exact Or.inl (by simp [handle, getSessionFiles_state])
  | endSession sessionId fault =>
    rcases endSession_cases dirname st sessionId fault with h | ⟨s, _, h, _⟩
    · exact Or.inl (by simp [handle, h])
    · exact Or.inr (Or.inr (Or.inr ⟨sessionId, fault, rfl, h⟩))

/-! ## Paths -/

theorem splitSlash_ne_nil (p : List Char) : splitSlash p ≠ [] := by
  cases p with
  | nil => simp [splitSlash]
  | cons c cs =>
    simp only [splitSlash]
    split
    · simp
    · split <;> simp

theorem splitSlash_of_no_separator (x : List Char) (h : '/' ∉ x) : splitSlash x = [x] := by
  induction x with
  | nil => rfl
  | cons c cs ih =>
    have hc : c ≠ '/' := fun hc => h (by simp [hc])
    have hcs : '/' ∉ cs := fun hcs => h (List.mem_cons_of_mem _ hcs)
    simp [splitSlash, hc, ih hcs]

theorem splitSlash_append_separator (a b : List Char) :
    splitSlash (a ++ '/' :: b) = splitSlash a ++ splitSlash b := by
  induction a with
  | nil => simp [splitSlash]
  | cons c cs ih =>
    by_cases hc : c = '/'
    · simp [splitSlash, hc, ih]
    · simp only [List.cons_append, splitSlash, hc, if_false]
      have ih' : splitSlash (cs.append ('/' :: b)) = splitSlash cs ++ splitSlash b := ih
      rw [ih']
      cases hs : splitSlash cs with
      | nil => exact absurd hs (splitSlash_ne_nil cs)
      | cons s ss => simp

theorem normStep_good (allowAboveRoot : Bool) (stack : List (List Char)) {x : List Char}
    (h : GoodSegment x) : normStep allowAboveRoot stack x = x :: stack := by
  obtain ⟨h1, _, h3, h4⟩ := h
  simp [normStep, h1, h3, h4]

theorem joinSlash_snoc_injective (segs : List (List Char)) {x y : List Char}
    (h : joinSlash (segs ++ [x]) = joinSlash (segs ++ [y])) : x = y := by
  induction segs with
  | nil => simpa [joinSlash] using h
  | cons s rest ih =>
    cases rest with
    | nil =>
      simp only [List.cons_append, List.nil_append, joinSlash] at h
      have := List.append_cancel_left h
      simpa using this
    | cons t rest' =>
      simp only [List.cons_append, joinSlash] at h
      have := List.append_cancel_left h
      simp only [List.cons.injEq, true_and] at this
      exact ih this

theorem joinSlash_snoc_ne_nil (segs : List (List Char)) {x : List Char} (hx : x ≠ []) :
    joinSlash (segs ++ [x]) ≠ [] := by
  cases segs with
  | nil => simpa [joinSlash] using hx
  | cons s rest =>
    cases rest with
    | nil => simp [joinSlash]
    | cons t rest' => simp [joinSlash]

theorem getLast?_ne_separator {x : List Char} (h1 : x ≠ []) (h2 : '/' ∉ x) (u : List Char) :
    (u ++ x).getLast? ≠ some '/' := by
  intro h
  rw [List.getLast?_append_of_ne_nil _ h1] at h
  exact h2 (List.mem_of_getLast?_eq_some h)

/-- Normalising `u/x` for a good segment `x`: the segments of `u` followed by `x`. -/
theorem normalizeChars_append_good (u : List Char) (hu : u ≠ []) {x : List Char}
    (hx : GoodSegment x) :
    normalizeChars (u ++ '/' :: x) =
      (if u.head? = some '/' then ['/'] else []) ++
        joinSlash (normSegments (!decide (u.head? = some '/')) u ++ [x]) := by
  have hne : u ++ '/' :: x ≠ [] := by simp
  have hhead : (u ++ '/' :: x).head? = u.head? := by
    cases u with
    | nil => exact absurd rfl hu
    | cons c cs => rfl
  have hlast : (u ++ '/' :: x).getLast? ≠ some '/' := by
    have := getLast?_ne_separator hx.1 hx.2.1 (u ++ ['/'])
    simpa using this
  have hsegs : ∀ b, normSegments b (u ++ '/' :: x) = normSegments b u ++ [x] := by
    intro b
    simp only [normSegments, splitSlash_append_separator,
      splitSlash_of_no_separator x hx.2.1, List.foldl_append, List.foldl_cons, List.foldl_nil,
      normStep_good b _ hx, List.reverse_cons]
  have hbody : ∀ b, joinSlash (normSegments b u ++ [x]) ≠ [] :=
    fun b => joinSlash_snoc_ne_nil _ hx.1
  simp only [normalizeChars, hne, if_false, hhead, hsegs, hbody, hlast, List.append_nil]

theorem normalizeChars_good {x : List Char} (hx : GoodSegment x) : normalizeChars x = x := by
  have hhead : x.head? ≠ some '/' := by
    intro h
    exact hx.2.1 (List.mem_of_mem_head? h)
  have hlast : x.getLast? ≠ some '/' := by
    have := getLast?_ne_separator hx.1 hx.2.1 []
    simpa using this
  have hsegs : normSegments true x = [x] := by
    simp [normSegments, splitSlash_of_no_separator x hx.2.1, normStep_good true _ hx]
  simp [normalizeChars, hx.1, hhead, hlast, hsegs, joinSlash]

/-- Joining a directory with two different good segments gives two different
paths. -/
theorem pathJoin_good_injective (dir x y : String) (hx : GoodSegment x.data)
    (hy : GoodSegment y.data) (h : pathJoin [dir, x] = pathJoin [dir, y]) : x = y := by
  have hxd : x.data ≠ [] := hx.1
  have hyd : y.data ≠ [] := hy.1
  apply String.ext
  have h' := congrArg String.data h
  by_cases hd : dir.data = []
  · simp only [pathJoin, List.map_cons, List.map_nil, List.filter_cons, hd, hxd, hyd, ne_eq,
      not_true_eq_false, not_false_eq_true, decide_True, decide_False, List.filter_nil,
      joinSlash, normalizeChars_good hx, normalizeChars_good hy, if_true, Bool.false_eq_true,
      if_false] at h'
    exact h'
  · simp only [pathJoin, List.map_cons, List.map_nil, List.filter_cons, hd, hxd, hyd, ne_eq,
      not_false_eq_true, decide_True, List.filter_nil, joinSlash, if_true,
      normalizeChars_append_good _ hd hx, normalizeChars_append_good _ hd hy] at h'
    exact joinSlash_snoc_injective _ (List.append_cancel_left h')

theorem digitChar_ne_separator (m : Nat) : Nat.digitChar m ≠ '/' := by
  by_cases h : m < 16
  · interval_cases m <;> decide
  · have hstar : Nat.digitChar m = '*' := by
      unfold Nat.digitChar
      have e0 : m ≠ 0 := by omega
      have e1 : m ≠ 1 := by omega
      have e2 : m ≠ 2 := by omega
      have e3 : m ≠ 3 := by omega
      have e4 : m ≠ 4 := by omega
      have e5 : m ≠ 5 := by omega
      have e6 : m ≠ 6 := by omega
      have e7 : m ≠ 7 := by omega
      have e8 : m ≠ 8 := by omega
      have e9 : m ≠ 9 := by omega
      have e10 : m ≠ 10 := by omega
      have e11 : m ≠ 11 := by omega
      have e12 : m ≠ 12 := by omega
      have e13 : m ≠ 13 := by omega
      have e14 : m ≠ 14 := by omega
      have e15 : m ≠ 15 := by omega
      simp only [e0, e1, e2, e3, e4, e5, e6, e7, e8, e9, e10, e11, e12, e13, e14, e15,
        if_false]
    rw [hstar]
    decide

theorem toDigitsCore_no_separator (fuel : Nat) :
    ∀ (n : Nat) (ds : List Char), '/' ∉ ds → '/' ∉ Nat.toDigitsCore 10 fuel n ds := by
  induction fuel with
  | zero => intro n ds h; simpa [Nat.toDigitsCore] using h
  | succ fuel ih =>
    intro n ds h
    have hcons : '/' ∉ Nat.digitChar (n % 10) :: ds := by
      simp only [List.mem_cons, not_or]
      exact ⟨fun hc => digitChar_ne_separator _ hc.symm, h⟩
    simp only [Nat.toDigitsCore]
    split
    · exact hcons
    · exact ih _ _ hcons

/-- A minted id is a good path segment. -/
theorem goodSegment_mintSessionId (now : Nat) : GoodSegment (mintSessionId now).data := by
  have hdata : (mintSessionId now).data = "session-".data ++ Nat.toDigits 10 now := by
    simp only [mintSessionId, String.data_append]
    rfl
  have hdigits : '/' ∉ Nat.toDigits 10 now :=
    toDigitsCore_no_separator _ _ _ (by simp)
  rw [hdata]
  refine ⟨by simp, ?_, by simp, by simp⟩
  simp only [List.mem_append, not_or]
  exact ⟨by decide, hdigits⟩

theorem basenameChars_no_separator (p : List Char) : '/' ∉ basenameChars p := by
  intro h
  simp only [basenameChars, List.mem_reverse] at h
  have := List.mem_takeWhile_imp h
  simp at this

theorem basenameChars_of_no_separator (x : List Char) (h : '/' ∉ x) : basenameChars x = x := by
  have hrev : '/' ∉ x.reverse := by simpa using h
  have hdrop : x.reverse.dropWhile (fun c => c == '/') = x.reverse := by
    cases hx : x.reverse with
    | nil => rfl
    | cons c cs =>
      have hc : c ≠ '/' := fun hc => hrev (by rw [hx, hc]; exact List.mem_cons_self _ _)
      have hb : (c == '/') = false := by simpa using hc
      simp only [List.dropWhile, hb]
  have htake : x.reverse.takeWhile (fun c => c != '/') = x.reverse := by
    rw [List.takeWhile_eq_self_iff]
    intro c hc
    have : c ≠ '/' := fun h' => hrev (h' ▸ hc)
    simpa using this
  simp only [basenameChars, hdrop, htake, List.reverse_reverse]

theorem busboyBasenameChars_good (p : List Char) (h : busboyBasenameChars p ≠ []) :
    GoodSegment (busboyBasenameChars p) ∧ Char.ofNat 92 ∉ busboyBasenameChars p := by
  unfold busboyBasenameChars at h ⊢
  simp only at h ⊢
  split at h
  · exact absurd rfl h
  · rename_i hdots
    rw [if_neg hdots]
    have hmem : ∀ c ∈ (p.reverse.takeWhile (fun c => c != '/' && c != Char.ofNat 92)).reverse,
        c ≠ '/' ∧ c ≠ Char.ofNat 92 := by
      intro c hc
      have := List.mem_takeWhile_imp (List.mem_reverse.mp hc)
      simpa using this
    refine ⟨⟨h, fun hc => (hmem _ hc).1 rfl, fun h1 => hdots (Or.inr h1),
      fun h2 => hdots (Or.inl h2)⟩, fun hc => (hmem _ hc).2 rfl⟩

theorem foldl_normStep_good (b : Bool) (segs : List (List Char))
    (hsegs : ∀ s ∈ segs, GoodSegment s) :
    ∀ stack, segs.foldl (normStep b) stack = segs.reverse ++ stack := by
  induction segs with
  | nil => intro stack; rfl
  | cons s rest ih =>
    intro stack
    simp only [List.foldl_cons, List.reverse_cons, List.append_assoc, List.singleton_append]
    rw [normStep_good b stack (hsegs s (List.mem_cons_self _ _)),
      ih (fun x hx => hsegs x (List.mem_cons_of_mem _ hx))]

theorem splitSlash_joinSlash (segs : List (List Char)) (hne : segs ≠ [])
    (hsegs : ∀ s ∈ segs, '/' ∉ s) : splitSlash (joinSlash segs) = segs := by
  induction segs with
  | nil => exact absurd rfl hne
  | cons s rest ih =>
    cases rest with
    | nil => simpa [joinSlash] using splitSlash_of_no_separator s (hsegs s (by simp))
    | cons t rest' =>
      simp only [joinSlash]
      rw [splitSlash_append_separator, splitSlash_of_no_separator s (hsegs s (by simp)),
        ih (by simp) (fun x hx => hsegs x (List.mem_cons_of_mem _ hx))]
      rfl

/-- The pieces of the absolute path made of good segments. -/
theorem splitSlash_absolute (segs : List (List Char)) (hsegs : ∀ s ∈ segs, GoodSegment s) :
    (splitSlash ('/' :: joinSlash segs)).filter (fun s => s ≠ []) = segs ∧
      (splitSlash ('/' :: joinSlash segs)).foldl (normStep false) [] = segs.reverse := by
  have hfilter : segs.filter (fun s => decide (s ≠ [])) = segs := by
    rw [List.filter_eq_self]
    intro s hs
    simpa using (hsegs s hs).1
  cases hs : segs with
  | nil => simp [splitSlash, joinSlash, normStep]
  | cons s rest =>
    rw [← hs]
    have hsplit : splitSlash ('/' :: joinSlash segs) = [] :: segs := by
      simp only [splitSlash, if_true]
      rw [splitSlash_joinSlash segs (by simp [hs]) (fun x hx => (hsegs x hx).2.1)]
    rw [hsplit]
    constructor
    · rw [List.filter_cons]
      simpa using hfilter
    · simp only [List.foldl_cons]
      have h0 : normStep false [] [] = [] := by simp [normStep]
      rw [h0, foldl_normStep_good false segs hsegs]
      simp

theorem joinSlash_snoc (segs : List (List Char)) (hne : segs ≠ []) (x : List Char) :
    joinSlash (segs ++ [x]) = joinSlash segs ++ '/' :: x := by
  induction segs with
  | nil => exact absurd rfl hne
  | cons s rest ih =>
    cases rest with
    | nil => simp [joinSlash]
    | cons t rest' =>
      have := ih (by simp)
      have this' : joinSlash (t :: rest'.append [x]) = joinSlash (t :: rest') ++ '/' :: x :=
        this
      simp only [List.cons_append, joinSlash]
      rw [this']
      simp

/-- Joining a good segment to an absolute path of good segments appends it. -/
theorem pathJoin_absolute_good (segs : List (List Char)) (hsegs : ∀ s ∈ segs, GoodSegment s)
    (dir : String) (hdir : dir.data = '/' :: joinSlash segs) (x : String)
    (hx : GoodSegment x.data) :
    (pathJoin [dir, x]).data = '/' :: joinSlash (segs ++ [x.data]) := by
  have hd : dir.data ≠ [] := by simp [hdir]
  have hxd : x.data ≠ [] := hx.1
  have hhead : dir.data.head? = some '/' := by simp [hdir]
  have hnorm : normSegments false dir.data = segs := by
    simp only [normSegments, hdir, (splitSlash_absolute segs hsegs).2, List.reverse_reverse]
  simp only [pathJoin, List.map_cons, List.map_nil, List.filter_cons, hd, hxd, ne_eq,
    not_false_eq_true, decide_True, List.filter_nil, joinSlash, if_true,
    normalizeChars_append_good _ hd hx, hhead, Bool.not_true, hnorm]
  rfl

theorem pathSegments_absolute (segs : List (List Char)) (hsegs : ∀ s ∈ segs, GoodSegment s)
    (p : String) (hp : p.data = '/' :: joinSlash segs) : pathSegments p = segs := by
  simp only [pathSegments, hp]
  exact (splitSlash_absolute segs hsegs).1

theorem strictlyInside_absolute (segs : List (List Char)) (hsegs : ∀ s ∈ segs, GoodSegment s)
    (dir p : String) (x : List Char) (hx : GoodSegment x)
    (hdir : dir.data = '/' :: joinSlash segs)
    (hp : p.data = '/' :: joinSlash (segs ++ [x])) : strictlyInside dir p = true := by
  have hsegs' : ∀ s ∈ segs ++ [x], GoodSegment s := by
    intro s hs
    rcases List.mem_append.mp hs with hs | hs
    · exact hsegs s hs
    · rw [List.mem_singleton.mp hs]
      exact hx
  rw [strictlyInside, pathSegments_absolute segs hsegs dir hdir,
    pathSegments_absolute (segs ++ [x]) hsegs' p hp]
  simp only [Bool.and_eq_true, bne_iff_ne, ne_eq]
  refine ⟨?_, ?_⟩
  · rw [List.isPrefixOf_iff_prefix]
    exact List.prefix_append _ _
  · intro heq
    have := congrArg List.length heq
    simp at this

theorem goodSegment_uploads : GoodSegment "uploads".data := by
  refine ⟨by decide, by decide, by decide, by decide⟩

theorem goodSegment_objectPrototypeNames :
    ∀ k ∈ objectPrototypeNames, GoodSegment k.data := by
  intro k hk
  simp only [objectPrototypeNames, List.mem_cons, List.mem_singleton, List.not_mem_nil,
    or_false] at hk
  rcases hk with h | h | h | h | h | h | h | h | h | h | h | h <;> subst h <;>
    exact ⟨by decide, by decide, by decide, by decide⟩

/-- With `__dirname` an absolute path of good segments, the directory of a
session whose id is a good segment is that path followed by `uploads` and the
id. -/
theorem sessionUploadPath_absolute (segs : List (List Char))
    (hsegs : ∀ s ∈ segs, GoodSegment s) (dirname : String)
    (hdir : dirname.data = '/' :: joinSlash segs) (sid : String)
    (hsid : GoodSegment sid.data) :
    (sessionUploadPath dirname sid).data =
      '/' :: joinSlash ((segs ++ ["uploads".data]) ++ [sid.data]) := by
  have hsegs' : ∀ s ∈ segs ++ ["uploads".data], GoodSegment s := by
    intro s hs
    rcases List.mem_append.mp hs with hs | hs
    · exact hsegs s hs
    · rw [List.mem_singleton.mp hs]
      exact goodSegment_uploads
  have hup : (uploadsDir dirname).data = '/' :: joinSlash (segs ++ ["uploads".data]) :=
    pathJoin_absolute_good segs hsegs dirname hdir "uploads" goodSegment_uploads
  exact pathJoin_absolute_good _ hsegs' (uploadsDir dirname) hup sid hsid

/-! ## Ids, container ids and storage paths stay apart -/

theorem pairwise_putSession {ss : List (String × Session)} {k : String} {v : Session}
    (hp : ss.Pairwise (fun p q => p.1 ≠ q.1 ∧ p.2.containerId ≠ q.2.containerId))
    (hnew : ∀ p ∈ ss, p.1 ≠ k → p.2.containerId ≠ v.containerId) :
    (putSession ss k v).Pairwise
      (fun p q => p.1 ≠ q.1 ∧ p.2.containerId ≠ q.2.containerId) := by
  induction ss with
  | nil => simp [putSession]
  | cons p rest ih =>
    obtain ⟨k', s⟩ := p
    rw [List.pairwise_cons] at hp
    obtain ⟨hhead, hrest⟩ := hp
    by_cases hk : k' = k
    · subst hk
      simp only [putSession, if_true, List.pairwise_cons]
      refine ⟨fun q hq => ⟨(hhead q hq).1, ?_⟩, hrest⟩
      exact fun heq =>
        hnew q (List.mem_cons_of_mem _ hq) (fun h => (hhead q hq).1 h.symm) heq.symm
    · simp only [putSession, hk, if_false, List.pairwise_cons]
      refine ⟨fun q hq => ?_, ih hrest (fun q hq => hnew q (List.mem_cons_of_mem _ hq))⟩
      rcases mem_putSession hq with hq | hq
      · exact hhead q hq
      · rw [hq]
        exact ⟨hk, hnew (k', s) (List.mem_cons_self _ _) hk⟩

theorem stopAndRemoveContainer_nextId (docker : Engine) (containerId : Nat)
    (fault : ReleaseFault) :
    (stopAndRemoveContainer docker containerId fault).nextId = docker.nextId := by
  unfold stopAndRemoveContainer
  split
  · cases fault <;> rfl
  · rfl

theorem storeInv_of_same {st st' : Server} (h : StoreInv st)
    (hs : st'.sessions = st.sessions) (hn : st.docker.nextId ≤ st'.docker.nextId) :
    StoreInv st' := by
  obtain ⟨h1, h2, h3⟩ := h
  refine ⟨by rw [hs]; exact h1, ?_, by rw [hs]; exact h3⟩
  intro p hp
  rw [hs] at hp
  exact Nat.lt_of_lt_of_le (h2 p hp) hn

theorem step_storeInv (dirname : String) (st : Server) (e : Event) (h : StoreInv st) :
    StoreInv (step dirname st e).1 := by
  by_cases hdown : st.down = true
  · simpa [step, hdown] using h
  have hstep : step dirname st e = handle dirname st e := by simp [step, hdown]
  rw [hstep]
  cases e with
  | startSession socket now startTime fault qr =>
    rcases startSession_cases dirname st socket now startTime fault qr with
      hfail | ⟨q, _, _, hok⟩
    · refine storeInv_of_same h hfail.2 ?_
      cases fault <;> cases qr <;> simp [handle, startSession, startSessionContainer]
    · obtain ⟨h1, h2, h3⟩ := h
      simp only [handle, hok]
      refine ⟨pairwise_putSession h1 ?_, ?_, ?_⟩
      · intro p hp _
        exact Nat.ne_of_lt (h2 p hp)
      · intro p hp
        rcases mem_putSession hp with hp | hp
        · exact Nat.lt_succ_of_lt (h2 p hp)
        · rw [hp]
          exact Nat.lt_succ_self _
      · intro p hp
        rcases mem_putSession hp with hp | hp
        · exact h3 p hp
        · rw [hp]
          exact goodSegment_mintSessionId now
  | upload req writeOk now =>
    rcases postUpload_cases dirname st req writeOk now with
      ⟨e, effs, hu⟩ | ⟨status, msg, _, hu⟩ | ⟨s, file, effs, hl, hu⟩
    · simpa [handle, hu] using h
    · simpa [handle, hu] using h
    · obtain ⟨h1, h2, h3⟩ := h
      have hmem := lookupSession_some_mem hl
      simp only [handle, hu]
      refine ⟨pairwise_putSession h1 ?_, ?_, ?_⟩
      · intro p hp hne
        have hpq : p ≠ (queryKey req.sessionId, s) := by
          intro heq
          exact hne (by rw [heq])
        exact (h1.forall (fun a b hab => ⟨hab.1.symm, hab.2.symm⟩) hp hmem hpq).2
      · intro p hp
        rcases mem_putSession hp with hp | hp
        · exact h2 p hp
        · rw [hp]
          exact h2 (queryKey req.sessionId, s) hmem
      · intro p hp
        rcases mem_putSession hp with hp | hp
        · exact h3 p hp
        · rw [hp]
          exact h3 (queryKey req.sessionId, s) hmem
  | printFile sessionId fileName =>
    exact storeInv_of_same h (printFile_sessions st sessionId fileName).1
      (by simp only [handle]; rw [(printFile_sessions st sessionId fileName).2])
  | joinSession socket sessionId =>
    exact storeInv_of_same h (joinSession_sessions st socket sessionId).1
      (by simp only [handle]; rw [(joinSession_sessions st socket sessionId).2])
  | getSessionFiles socket sessionId =>
    simpa [handle, getSessionFiles_state] using h
  | endSession sessionId fault =>
    simp only [handle]
    rcases endSession_cases dirname st sessionId fault with hsame | ⟨s, _, hs, hd⟩
    · rw [hsame]
      exact h
    · obtain ⟨h1, h2, h3⟩ := h
      refine ⟨?_, ?_, ?_⟩
      · rw [hs]
        exact h1.sublist (List.filter_sublist _)
      · intro p hp
        rw [hs] at hp
        rw [hd, stopAndRemoveContainer_nextId]
        exact h2 p (mem_deleteSession hp).1
      · intro p hp
        rw [hs] at hp
        exact h3 p (mem_deleteSession hp).1

theorem run_storeInv (dirname : String) (evs : List Event) :
    ∀ st : Server, StoreInv st → StoreInv (run dirname st evs) := by
  induction evs with
  | nil => intro st h; simpa [run] using h
  | cons e es ih =>
    intro st h
    simp only [run]
    exact ih _ (step_storeInv dirname st e h)

theorem separate_of_storeInv (dirname : String) {st : Server} (h : StoreInv st) :
    Separate dirname st.sessions := by
  obtain ⟨h1, _, h3⟩ := h
  refine List.Pairwise.imp_of_mem ?_ h1
  intro a b ha hb hab
  refine ⟨hab.1, hab.2, ?_⟩
  intro hpath
  exact hab.1 (pathJoin_good_injective (uploadsDir dirname) a.1 b.1 (h3 a ha) (h3 b hb) hpath)

/-! ## Ticket numbering -/

theorem numbered_freshSession (sessionId : String) (containerId startTime : Nat) :
    Numbered (freshSession sessionId containerId startTime) := by
  simp [Numbered, freshSession]

theorem numbered_withTicket {s : Session} (h : Numbered s) (name : String) (size now : Nat) :
    Numbered (withTicket s name size now) := by
  obtain ⟨hids, hctr⟩ := h
  constructor
  · simp only [withTicket, ticketFor, List.map_append, List.length_append, List.map_cons,
      List.map_nil, List.length_singleton, hids, hctr]
    rw [List.range'_concat]
    simp [Nat.add_comm]
  · simp [withTicket, hctr]

theorem step_numbered (dirname : String) (st : Server) (e : Event)
    (h : ∀ p ∈ st.sessions, Numbered p.2) :
    ∀ p ∈ (step dirname st e).1.sessions, Numbered p.2 := by
  intro p hp
  rcases step_sessions dirname st e with
    hs | ⟨now, startTime, _, hs⟩ | ⟨k, s, name, size, now, hl, _, hs⟩ | ⟨k, fault, _, hs⟩
  · rw [hs] at hp
    exact h p hp
  · rw [hs] at hp
    rcases mem_putSession hp with hp | hp
    · exact h p hp
    · rw [hp]
      exact numbered_freshSession _ _ _
  · rw [hs] at hp
    rcases mem_putSession hp with hp | hp
    · exact h p hp
    · rw [hp]
      exact numbered_withTicket (h _ (lookupSession_some_mem hl)) _ _ _
  · rw [hs] at hp
    exact h p (mem_deleteSession hp).1

theorem run_numbered (dirname : String) (evs : List Event) :
    ∀ st : Server, (∀ p ∈ st.sessions, Numbered p.2) →
      ∀ p ∈ (run dirname st evs).sessions, Numbered p.2 := by
  induction evs with
  | nil => intro st h; simpa [run] using h
  | cons e es ih =>
    intro st h
    simp only [run]
    exact ih _ (step_numbered dirname st e h)

/-- C1. In every state reached from the empty store by any sequence of
start-session, upload, print-file, join-session, get-session-files and
end-session events, the ids of each session's `files` are strictly increasing
in list order, hence pairwise distinct. -/
theorem ticket_ids_strictly_increasing (dirname : String) (evs : List Event)
    (p : String × Session) (h : p ∈ (run dirname Server.init evs).sessions) :
    List.Pairwise (fun a b => a < b) (p.2.files.map FileData.id) ∧
      (p.2.files.map FileData.id).Nodup := by
  have hn : Numbered p.2 :=
    run_numbered dirname evs Server.init (by simp [Server.init]) p h
  have hlt : List.Pairwise (fun a b => a < b) (p.2.files.map FileData.id) := by
    rw [hn.1]
    exact List.pairwise_lt_range' 1 p.2.files.length
  exact ⟨hlt, hlt.imp (fun hab => Nat.ne_of_lt hab)⟩

/-- What an event that neither starts nor ends `sid` does to the record of
`sid`: an accepted upload to `sid` appends one ticket, anything else leaves the
record as it is. -/
theorem step_session_at (dirname : String) (st : Server) (sid : String) (s : Session)
    (e : Event) (hlife : touchesLifecycle sid e = false)
    (hl : lookupSession st.sessions sid = some s) :
    (acceptedUpload dirname st sid e = false ∧
      lookupSession (step dirname st e).1.sessions sid = some s) ∨
    (acceptedUpload dirname st sid e = true ∧
      ∃ name size now,
        lookupSession (step dirname st e).1.sessions sid =
          some (withTicket s name size now)) := by
  by_cases hdown : st.down = true
  · left
    refine ⟨?_, by simp [step, hdown, hl]⟩
    cases e <;> simp [acceptedUpload, hdown]
  have hstep : step dirname st e = handle dirname st e := by simp [step, hdown]
  rw [hstep]
  cases e with
  | startSession socket now startTime fault qr =>
    left
    refine ⟨rfl, ?_⟩
    have hne : sid ≠ mintSessionId now := by
      intro h
      simp [touchesLifecycle, h] at hlife
    rcases startSession_cases dirname st socket now startTime fault qr with h | ⟨q, _, _, h⟩
    · simp only [handle]
      rw [h.2, hl]
    · simp only [handle, h]
      rw [lookupSession_putSession_other _ _ hne, hl]
  | upload req writeOk now =>
    rcases postUpload_cases dirname st req writeOk now with
      ⟨e, effs, h⟩ | ⟨status, msg, hstatus, h⟩ | ⟨s₀, file, effs, hl₀, h⟩
    · left
      simp [acceptedUpload, handle, h, Response.status, hl]
    · left
      simp [acceptedUpload, handle, h, Response.status, hl, hstatus]
    · by_cases hk : queryKey req.sessionId = sid
      · right
        rw [hk, hl] at hl₀
        cases hl₀
        refine ⟨by simp [acceptedUpload, hdown, hk, h, Response.status], file.filename,
          file.size, now, ?_⟩
        simp only [handle, h]
        rw [hk, lookupSession_putSession_same]
      · left
        refine ⟨by simp [acceptedUpload, hk], ?_⟩
        simp only [handle, h]
        rw [lookupSession_putSession_other _ _ (Ne.symm hk), hl]
  | printFile sessionId fileName =>
    left
    refine ⟨rfl, ?_⟩
    simp only [handle]
    rw [(printFile_sessions st sessionId fileName).1, hl]
  | joinSession socket sessionId =>
    left
    refine ⟨rfl, ?_⟩
    simp only [handle]
    rw [(joinSession_sessions st socket sessionId).1, hl]
  | getSessionFiles socket sessionId =>
    left
    refine ⟨rfl, ?_⟩
    simp only [handle, getSessionFiles_state]
    exact hl
  | endSession sessionId fault =>
    left
    refine ⟨rfl, ?_⟩
    have hne : sid ≠ sessionId := by
      intro h
      simp [touchesLifecycle, h] at hlife
    simp only [handle]
    rcases endSession_cases dirname st sessionId fault with h | ⟨s', _, h, _⟩
    · rw [h, hl]
    · rw [h, lookupSession_deleteSession_other _ hne, hl]

theorem run_numbering (dirname : String) (sid : String) (evs : List Event) :
    ∀ (st : Server) (s : Session), lookupSession st.sessions sid = some s →
      (∀ e ∈ evs, touchesLifecycle sid e = false) →
      ∃ s', lookupSession (run dirname st evs).sessions sid = some s' ∧
        s'.files.map FileData.id =
          s.files.map FileData.id ++
            List.range' s.fileCounter (countAccepted dirname sid st evs) ∧
        s'.fileCounter = s.fileCounter + countAccepted dirname sid st evs := by
  induction evs with
  | nil =>
    intro st s hl _
    exact ⟨s, by simpa [run] using hl, by simp [countAccepted], by simp [countAccepted]⟩
  | cons e es ih =>
    intro st s hl hlife
    have he := hlife e (List.mem_cons_self _ _)
    have hes : ∀ e' ∈ es, touchesLifecycle sid e' = false :=
      fun e' he' => hlife e' (List.mem_cons_of_mem _ he')
    rcases step_session_at dirname st sid s e he hl with ⟨hacc, hl'⟩ | ⟨hacc, name, size, now, hl'⟩
    · obtain ⟨s', h1, h2, h3⟩ := ih _ s hl' hes
      refine ⟨s', by simpa [run] using h1, ?_, ?_⟩
      · simp [countAccepted, hacc, h2]
      · simp [countAccepted, hacc, h3]
    · obtain ⟨s', h1, h2, h3⟩ := ih _ _ hl' hes
      refine ⟨s', by simpa [run] using h1, ?_, ?_⟩
      · rw [h2]
        simp only [countAccepted, hacc, if_true, withTicket, ticketFor, List.map_append,
          List.map_cons, List.map_nil, List.append_assoc, List.singleton_append]
        rw [Nat.add_comm 1, List.range'_succ]
      · rw [h3]
        simp only [countAccepted, hacc, if_true, withTicket]
        omega

theorem ticket_ids_strictly_increasing_witness :
    (demoId, { demoRecord with files := [demoEntryA, demoEntryB], fileCounter := 3 }) ∈
        (run demoDir Server.init
          [demoStart, demoUpload demoId "a.pdf" 1024 1700000000100,
           .printFile demoId "a.pdf",
           demoUpload demoId "b.pdf" 2048 1700000000200]).sessions ∧
      List.Pairwise (fun a b => a < b) ([demoEntryA, demoEntryB].map FileData.id) ∧
      ([demoEntryA, demoEntryB].map FileData.id).Nodup :=
  ⟨by decide,
   ticket_ids_strictly_increasing demoDir
     [demoStart, demoUpload demoId "a.pdf" 1024 1700000000100, .printFile demoId "a.pdf",
      demoUpload demoId "b.pdf" 2048 1700000000200]
     (demoId, { demoRecord with files := [demoEntryA, demoEntryB], fileCounter := 3 })
     (by decide)⟩

/-- C2. After a session has been started, any run of events that neither
starts nor ends that session and contains exactly `n` accepted uploads to it
leaves it live with `n` entries, the `i`-th of which has id `i` for
`1 ≤ i ≤ n`, and with `fileCounter = n + 1`. -/
theorem ticket_numbering_after_uploads (dirname : String) (st : Server)
    (socket now startTime : Nat) (qr : String) (evs : List Event)
    (hevs : ∀ e ∈ evs, touchesLifecycle (mintSessionId now) e = false) :
    ∃ s : Session,
      lookupSession
          (run dirname (startSession dirname st socket now startTime .none (some qr)).1
            evs).sessions (mintSessionId now) = some s ∧
        s.files.length =
          countAccepted dirname (mintSessionId now)
            (startSession dirname st socket now startTime .none (some qr)).1 evs ∧
        (∀ i, 1 ≤ i → i ≤ s.files.length → (s.files[i - 1]?).map FileData.id = some i) ∧
        s.fileCounter = s.files.length + 1 := by
  have hstart : lookupSession
      (startSession dirname st socket now startTime .none (some qr)).1.sessions
      (mintSessionId now) = some (freshSession (mintSessionId now) st.docker.nextId startTime) := by
    rcases startSession_cases dirname st socket now startTime .none (some qr) with
      h | ⟨q, _, _, h⟩
    · rcases h.1 with h' | h'
      · exact absurd rfl h'
      · cases h'
    · rw [h]
      exact lookupSession_putSession_same _ _ _
  obtain ⟨s, h1, h2, h3⟩ := run_numbering dirname (mintSessionId now) evs _ _ hstart hevs
  have hlen : s.files.length =
      countAccepted dirname (mintSessionId now)
        (startSession dirname st socket now startTime .none (some qr)).1 evs := by
    have := congrArg List.length h2
    simpa [freshSession] using this
  refine ⟨s, h1, hlen, ?_, ?_⟩
  · intro i hi1 hin
    rw [← List.getElem?_map, h2]
    simp only [freshSession, List.map_nil, List.nil_append]
    rw [List.getElem?_range' 1 1 (by omega)]
    simp only [Option.some.injEq]
    omega
  · rw [h3, hlen]
    simp [freshSession, Nat.add_comm]

theorem ticket_numbering_after_uploads_witness :
    (∀ e ∈ [demoUpload demoId "a.pdf" 1024 1700000000100, Event.printFile demoId "a.pdf",
            demoUpload "session-1" "x.pdf" 1 1700000000150,
            Event.endSession "session-1" .none, Event.joinSession 8 demoId,
            demoUpload demoId "b.pdf" 2048 1700000000200],
        touchesLifecycle (mintSessionId 1700000000000) e = false) ∧
      ∃ s : Session,
        lookupSession
            (run demoDir (startSession demoDir Server.init 7 1700000000000 1700000000002
                .none (some "data:image/png;base64,iVBORw0KGgo=")).1
              [demoUpload demoId "a.pdf" 1024 1700000000100, Event.printFile demoId "a.pdf",
               demoUpload "session-1" "x.pdf" 1 1700000000150,
               Event.endSession "session-1" .none, Event.joinSession 8 demoId,
               demoUpload demoId "b.pdf" 2048 1700000000200]).sessions
            (mintSessionId 1700000000000) = some s ∧
          s.files.length =
            countAccepted demoDir (mintSessionId 1700000000000)
              (startSession demoDir Server.init 7 1700000000000 1700000000002
                .none (some "data:image/png;base64,iVBORw0KGgo=")).1
              [demoUpload demoId "a.pdf" 1024 1700000000100, Event.printFile demoId "a.pdf",
               demoUpload "session-1" "x.pdf" 1 1700000000150,
               Event.endSession "session-1" .none, Event.joinSession 8 demoId,
               demoUpload demoId "b.pdf" 2048 1700000000200] ∧
          (∀ i, 1 ≤ i → i ≤ s.files.length → (s.files[i - 1]?).map FileData.id = some i) ∧
          s.fileCounter = s.files.length + 1 :=
  ⟨by decide,
   ticket_numbering_after_uploads demoDir Server.init 7 1700000000000 1700000000002
     "data:image/png;base64,iVBORw0KGgo=" _ (by decide)⟩

/-! ## The upload gateway -/

/-- C3, amended. An upload that reaches the handler with a stored file
(`req.file`) for a live session `sid` appends exactly one entry at the end of
the session's `files`, named as the stored file and of its size, answers 200
with that entry's id as `ticketNumber`, and broadcasts exactly one
`file-uploaded` event, carrying that entry, to room `sid`. Through the whole
route: whenever multer stores the file part of a request naming `sid`, the
stored name is the base name of the name busboy reports for the part, the size
is the part's byte length, and the route answers and appends in just that
way. A part that multer passes over, its declared name reduced to nothing by
busboy, is answered 400 like a request without a file, and a part whose write
fails is answered 500; neither changes the state. -/
theorem upload_appends_one_entry (dirname : String) (st : Server) (sid : String)
    (s : Session) (now : Nat) (h : lookupSession st.sessions sid = some s) :
    (∀ file : StoredFile,
      (uploadHandler st (some sid) (some file) now).2.1 =
          .json 200 "File sent to the counter!" (some s.fileCounter) ∧
        (uploadHandler st (some sid) (some file) now).2.2 =
          [Effect.toRoom sid (.fileUploaded ⟨s.fileCounter, file.filename, file.size, now⟩)] ∧
        ∃ s', lookupSession (uploadHandler st (some sid) (some file) now).1.sessions sid =
            some s' ∧
          s'.files = s.files ++ [⟨s.fileCounter, file.filename, file.size, now⟩]) ∧
    (∀ (part : FilePart) (writeOk : Bool) (f : StoredFile) (effs : List Effect),
      uploadSingle dirname st.sessions ⟨some sid, some part⟩ writeOk = (.ok (some f), effs) →
        f.filename = basename (busboyFilename part.declaredName) ∧ f.size = part.size ∧
        effs = [Effect.write f.path f.size] ∧
        (postUpload dirname st ⟨some sid, some part⟩ writeOk now).2.1 =
          .json 200 "File sent to the counter!" (some s.fileCounter) ∧
        (postUpload dirname st ⟨some sid, some part⟩ writeOk now).2.2 =
          [Effect.write f.path f.size,
           Effect.toRoom sid (.fileUploaded ⟨s.fileCounter, f.filename, f.size, now⟩)] ∧
        ∃ s', lookupSession
            (postUpload dirname st ⟨some sid, some part⟩ writeOk now).1.sessions sid =
              some s' ∧
          s'.files = s.files ++ [⟨s.fileCounter, f.filename, f.size, now⟩]) ∧
    (∀ (part : FilePart) (writeOk : Bool), busboyFilename part.declaredName = "" →
      postUpload dirname st ⟨some sid, some part⟩ writeOk now =
        (st, .json 400 "File upload failed." none, [])) ∧
    (∀ part : FilePart, busboyFilename part.declaredName ≠ "" →
      (postUpload dirname st ⟨some sid, some part⟩ false now).1 = st ∧
        (postUpload dirname st ⟨some sid, some part⟩ false now).2.1.status = 500) := by
  have hq : lookupSession st.sessions (queryKey (some sid)) = some s := by
    simpa [queryKey] using h
  have hhandler : ∀ file : StoredFile,
      (uploadHandler st (some sid) (some file) now).2.1 =
          .json 200 "File sent to the counter!" (some s.fileCounter) ∧
        (uploadHandler st (some sid) (some file) now).2.2 =
          [Effect.toRoom sid (.fileUploaded ⟨s.fileCounter, file.filename, file.size, now⟩)] ∧
        ∃ s', lookupSession (uploadHandler st (some sid) (some file) now).1.sessions sid =
            some s' ∧
          s'.files = s.files ++ [⟨s.fileCounter, file.filename, file.size, now⟩] := by
    intro file
    rw [uploadHandler_accepted file now hq]
    refine ⟨rfl, by simp [queryKey, ticketFor], withTicket s file.filename file.size now, ?_, ?_⟩
    · simp only [queryKey, Option.getD_some]
      exact lookupSession_putSession_same _ _ _
    · simp [withTicket, ticketFor]
  refine ⟨hhandler, ?_, ?_, ?_⟩
  rotate_left
  · intro part writeOk hdrop
    simp [postUpload, uploadSingle, hdrop, uploadHandler_noFile now hq]
  · intro part hname
    rcases uploadSingle_cases dirname st.sessions ⟨some sid, some part⟩ false with
      ⟨e, effs', hres, _⟩ | hres | ⟨_, _, _, _, _, _, _, hw, _⟩
    · simp [postUpload, hres, Response.status]
    · exfalso
      simp only [uploadSingle, hname, if_false] at hres
      cases hd : destination dirname st.sessions (some sid) with
      | error e => simp [hd] at hres
      | ok dest => simp [hd] at hres
    · cases hw
  intro part writeOk f effs hstored
  obtain ⟨h1, h2, h3⟩ := hhandler f
  have hshape : f.filename = basename (busboyFilename part.declaredName) ∧
      f.size = part.size ∧ effs = [Effect.write f.path f.size] := by
    rcases uploadSingle_cases dirname st.sessions ⟨some sid, some part⟩ writeOk with
      ⟨e, effs', hres, _⟩ | hres |
      ⟨part', dest, f', effs', hpart, _, _, _, hname, hsize, _, _, heffs, hres⟩
    · rw [hres] at hstored
      simp at hstored
    · rw [hres] at hstored
      simp at hstored
    · rw [hres] at hstored
      simp only [Prod.mk.injEq, Except.ok.injEq, Option.some.injEq] at hstored hpart
      obtain ⟨hf, he⟩ := hstored
      subst hf
      subst he
      rw [hpart]
      exact ⟨by simpa [filename] using hname, hsize, heffs⟩
  refine ⟨hshape.1, hshape.2.1, hshape.2.2, ?_, ?_, ?_⟩
  · simp only [postUpload, hstored]
    exact h1
  · simp only [postUpload, hstored]
    rw [h2, hshape.2.2]
    rfl
  · simp only [postUpload, hstored]
    exact h3

theorem upload_appends_one_entry_witness :
    lookupSession demoStarted.sessions demoId = some demoRecord ∧
      (uploadHandler demoStarted (some demoId)
          (some ⟨"a.pdf", 1024, sessionUploadPath demoDir demoId,
            "/srv/safe-print/backend/uploads/session-1700000000000/a.pdf"⟩)
          1700000000100).2 =
        (.json 200 "File sent to the counter!" (some 1),
         [Effect.toRoom demoId (.fileUploaded demoEntryA)]) ∧
      (postUpload demoDir demoStarted ⟨some demoId, some ⟨"a.pdf", 1024⟩⟩ true
          1700000000100).2.1 = .json 200 "File sent to the counter!" (some 1) :=
  have key := upload_appends_one_entry demoDir demoStarted demoId demoRecord 1700000000100
    (by decide)
  ⟨by decide,
   Prod.ext
     (key.1 ⟨"a.pdf", 1024, sessionUploadPath demoDir demoId,
       "/srv/safe-print/backend/uploads/session-1700000000000/a.pdf"⟩).1
     (key.1 ⟨"a.pdf", 1024, sessionUploadPath demoDir demoId,
       "/srv/safe-print/backend/uploads/session-1700000000000/a.pdf"⟩).2.1,
   (key.2.1 ⟨"a.pdf", 1024⟩ true
     ⟨"a.pdf", 1024, sessionUploadPath demoDir demoId,
       "/srv/safe-print/backend/uploads/session-1700000000000/a.pdf"⟩
     [Effect.write "/srv/safe-print/backend/uploads/session-1700000000000/a.pdf" 1024]
     rfl).2.2.2.1⟩

/-- The upload scenario through the whole route: `a.pdf` of 1024 bytes uploaded
to a fresh session gets ticket 1 and is broadcast to the room, then `b.pdf`
gets ticket 2. -/
theorem upload_scenario_tickets :
    (postUpload demoDir demoStarted ⟨some demoId, some ⟨"a.pdf", 1024⟩⟩ true
        1700000000100).2 =
      (.json 200 "File sent to the counter!" (some 1),
       [Effect.write "/srv/safe-print/backend/uploads/session-1700000000000/a.pdf" 1024,
        Effect.toRoom demoId (.fileUploaded demoEntryA)]) ∧
    (postUpload demoDir
        (postUpload demoDir demoStarted ⟨some demoId, some ⟨"a.pdf", 1024⟩⟩ true
          1700000000100).1
        ⟨some demoId, some ⟨"b.pdf", 2048⟩⟩ true 1700000000200).2 =
      (.json 200 "File sent to the counter!" (some 2),
       [Effect.write "/srv/safe-print/backend/uploads/session-1700000000000/b.pdf" 2048,
        Effect.toRoom demoId (.fileUploaded demoEntryB)]) ∧
    lookupSession demoQueued.sessions demoId =
      some { demoRecord with files := [demoEntryA, demoEntryB], fileCounter := 3 } := by
  decide

/-- C3, refuted as stated. A request that names the live session and carries
a file part whose declared name is `..` is not answered 200: busboy reduces
the name to nothing, multer passes the part over and the handler answers 400;
no entry is appended and nothing is broadcast. A request whose part is written
with an error is answered 500, again with nothing appended. -/
theorem upload_with_dropped_part_is_400 :
    lookupSession demoStarted.sessions demoId = some demoRecord ∧
    postUpload demoDir demoStarted ⟨some demoId, some ⟨"..", 10⟩⟩ true 1700000000100 =
      (demoStarted, .json 400 "File upload failed." none, []) ∧
    (postUpload demoDir demoStarted ⟨some demoId, some ⟨"..", 10⟩⟩ true
        1700000000100).2.1.status ≠ 200 ∧
    lookupSession
        (postUpload demoDir demoStarted ⟨some demoId, some ⟨"..", 10⟩⟩ true
          1700000000100).1.sessions demoId = some demoRecord ∧
    postUpload demoDir demoStarted ⟨some demoId, some ⟨"a.pdf", 1024⟩⟩ false 1700000000100 =
      (demoStarted, .failure 500 "write",
       [Effect.writeFailed "/srv/safe-print/backend/uploads/session-1700000000000/a.pdf"]) := by
  decide

/-- More parts multer passes over or renames, for the live session: a name
ending in a slash is passed over like `..`, and a declared `a\b.pdf` is
queued as `b.pdf`. -/
theorem upload_renamed_parts :
    postUpload demoDir demoStarted ⟨some demoId, some ⟨"dir/sub/", 10⟩⟩ true 1700000000100 =
      (demoStarted, .json 400 "File upload failed." none, []) ∧
    (postUpload demoDir demoStarted
        ⟨some demoId, some ⟨String.mk ['a', Char.ofNat 92, 'b', '.', 'p', 'd', 'f'], 10⟩⟩ true
        1700000000100).2.2 =
      [Effect.write "/srv/safe-print/backend/uploads/session-1700000000000/b.pdf" 10,
       Effect.toRoom demoId
         (.fileUploaded ⟨1, "b.pdf", 10, 1700000000100⟩)] := by
  decide

/-- An upload whose session key reads as `undefined` changes nothing, writes
nothing and emits nothing; it is answered 404 by the handler when multer
attaches no file (no file part, or one whose name busboy reduces to nothing)
and 500 by Express, for the error of the `destination` callback, otherwise. -/
theorem postUpload_unknown_session (dirname : String) (st : Server) (req : UploadRequest)
    (writeOk : Bool) (now : Nat)
    (h : readSession st.sessions (queryKey req.sessionId) = .undefined) :
    postUpload dirname st req writeOk now =
      (st,
       (match req.file with
        | none => Response.json 404 "Session not found or has expired." none
        | some part =>
          if busboyFilename part.declaredName = "" then
            Response.json 404 "Session not found or has expired." none
          else Response.failure 500 "Invalid or expired session."),
       []) := by
  cases hf : req.file with
  | none =>
    simp [postUpload, uploadSingle, hf, uploadHandler_notFound none now h]
  | some part =>
    by_cases hname : busboyFilename part.declaredName = ""
    · simp [postUpload, uploadSingle, hf, hname, uploadHandler_notFound none now h]
    · have hd : destination dirname st.sessions req.sessionId =
          .error "Invalid or expired session." := by
        unfold destination
        cases hq : req.sessionId with
        | none => rfl
        | some sid =>
          simp only [hq, queryKey, Option.getD_some] at h
          simp [h]
      simp [postUpload, uploadSingle, hf, hname, hd]

/-- C4, evaluated. An upload with a file part to an id that is not a key of
the store is answered with status 500, not 404: the `destination` callback
fails, multer passes the error on and the route handler with its 404 answer
never runs. Nothing is written, stored or broadcast. The same request without
a file part is answered 404. -/
theorem upload_unknown_session_with_file_is_500 :
    lookupSession demoStarted.sessions "session-404" = none ∧
    postUpload demoDir demoStarted ⟨some "session-404", some ⟨"a.pdf", 1024⟩⟩ true
        1700000000100 =
      (demoStarted, .failure 500 "Invalid or expired session.", []) ∧
    (postUpload demoDir demoStarted ⟨some "session-404", some ⟨"a.pdf", 1024⟩⟩ true
        1700000000100).2.1.status ≠ 404 ∧
    postUpload demoDir demoStarted ⟨none, some ⟨"a.pdf", 1024⟩⟩ true 1700000000100 =
      (demoStarted, .failure 500 "Invalid or expired session.", []) ∧
    postUpload demoDir demoStarted ⟨some "session-404", none⟩ true 1700000000100 =
      (demoStarted, .json 404 "Session not found or has expired." none, []) := by
  decide

/-! ## File names -/

theorem string_ne_of_data_ne {a b : String} (h : a.data ≠ b.data) : a ≠ b :=
  fun hab => h (by rw [hab])

theorem takeWhile_congr_mem {p q : Char → Bool} (l : List Char)
    (h : ∀ c ∈ l, p c = q c) : l.takeWhile p = l.takeWhile q := by
  induction l with
  | nil => rfl
  | cons c cs ih =>
    simp only [List.takeWhile, h c (List.mem_cons_self _ _)]
    rw [ih (fun x hx => h x (List.mem_cons_of_mem _ hx))]

/-- For a declared name without a backslash, the name busboy reports, when it
is not empty, is Node's base name of the declared name. -/
theorem busboyBasenameChars_eq_basenameChars (p : List Char) (hback : Char.ofNat 92 ∉ p)
    (h : busboyBasenameChars p ≠ []) : busboyBasenameChars p = basenameChars p := by
  have htake : p.reverse.takeWhile (fun c => c != '/' && c != Char.ofNat 92) =
      p.reverse.takeWhile (fun c => c != '/') := by
    apply takeWhile_congr_mem
    intro c hc
    have hne : c ≠ Char.ofNat 92 := fun hc' => hback (hc' ▸ List.mem_reverse.mp hc)
    simp [hne]
  unfold busboyBasenameChars at h ⊢
  simp only [htake] at h ⊢
  split at h
  · exact absurd rfl h
  · rename_i hdots
    rw [if_neg hdots]
    have hdrop : p.reverse.dropWhile (fun c => c == '/') = p.reverse := by
      cases hp : p.reverse with
      | nil => rfl
      | cons c cs =>
        have hc : (c == '/') = false := by
          cases hb : (c == '/') with
          | false => rfl
          | true =>
            exfalso
            apply h
            have hb' : (c != '/') = false := by simp [bne, hb]
            rw [hp]
            simp [List.takeWhile, hb']
        simp only [List.dropWhile, hc]
    simp only [basenameChars, hdrop]

/-- C5. With `__dirname` an absolute path, in every state reached from the
empty store and for every declared file name: when multer stores the part of
an upload, the stored name is the name busboy reports for the part, it
contains neither a slash nor a backslash and is neither empty nor `.` nor
`..`, the file is written to the session directory followed by a slash and
that name, and this path lies strictly inside the session directory. The
stored name is Node's base name of the declared name whenever that has no
backslash. A part whose declared name busboy reduces to nothing is not stored
at all. -/
theorem stored_name_stays_inside (dirname : String) (segs : List (List Char))
    (hsegs : ∀ s ∈ segs, GoodSegment s) (hdir : dirname.data = '/' :: joinSlash segs)
    (evs : List Event) (sid : String) (part : FilePart) (writeOk : Bool) (f : StoredFile)
    (effs : List Effect)
    (hstored : uploadSingle dirname (run dirname Server.init evs).sessions
      ⟨some sid, some part⟩ writeOk = (.ok (some f), effs)) :
    f.filename = busboyFilename part.declaredName ∧
      '/' ∉ f.filename.data ∧ Char.ofNat 92 ∉ f.filename.data ∧
      f.filename ≠ "" ∧ f.filename ≠ "." ∧ f.filename ≠ ".." ∧
      f.destination = sessionUploadPath dirname sid ∧
      f.path = f.destination ++ "/" ++ f.filename ∧
      strictlyInside f.destination f.path = true ∧
      (Char.ofNat 92 ∉ part.declaredName.data → f.filename = basename part.declaredName) ∧
      (∀ (sessions : List (String × Session)) (sessionId : Option String) (dropped : FilePart)
          (w : Bool), busboyFilename dropped.declaredName = "" →
        uploadSingle dirname sessions ⟨sessionId, some dropped⟩ w = (.ok none, [])) := by
  have hinv : StoreInv (run dirname Server.init evs) :=
    run_storeInv dirname evs Server.init (by simp [StoreInv, Server.init])
  rcases uploadSingle_cases dirname (run dirname Server.init evs).sessions
      ⟨some sid, some part⟩ writeOk with
    ⟨e, effs', hres, _⟩ | hres |
    ⟨part', dest, f', effs', hpart, hne, hdest, _, hname, _, hfd, hpath, _, hres⟩
  · rw [hres] at hstored
    simp at hstored
  · rw [hres] at hstored
    simp at hstored
  rw [hres] at hstored
  simp only [Prod.mk.injEq, Except.ok.injEq, Option.some.injEq] at hstored hpart
  obtain ⟨hf, _⟩ := hstored
  subst hf
  subst hpart
  -- the name busboy reports is a good segment
  have hdata : busboyBasenameChars part.declaredName.data ≠ [] := by
    intro hnil
    apply hne
    simp [busboyFilename, hnil]
  obtain ⟨hgood, hback⟩ := busboyBasenameChars_good _ hdata
  have hfn : f'.filename = busboyFilename part.declaredName := by
    rw [hname]
    simp only [filename, basename, busboyFilename]
    rw [basenameChars_of_no_separator _ hgood.2.1]
  have hfdata : f'.filename.data = busboyBasenameChars part.declaredName.data := by
    rw [hfn]
    rfl
  have hgoodf : GoodSegment f'.filename.data := by
    rw [hfdata]
    exact hgood
  -- the session id is a good segment
  have hsid : GoodSegment sid.data ∧ dest = sessionUploadPath dirname sid := by
    unfold destination at hdest
    simp only at hdest
    split at hdest
    · cases hdest
    · rename_i hcond
      simp only [not_or] at hcond
      simp only [Except.ok.injEq] at hdest
      refine ⟨?_, by rw [← hdest]; rfl⟩
      cases hslot : readSession (run dirname Server.init evs).sessions sid with
      | undefined => exact absurd hslot hcond.2
      | record s =>
        exact hinv.2.2 (sid, s) (lookupSession_some_mem (lookup_of_readSession_record hslot))
      | inherited =>
        apply goodSegment_objectPrototypeNames
        unfold readSession at hslot
        rw [lookup_of_readSession_inherited hslot] at hslot
        simp only at hslot
        by_contra hnot
        simp [hnot] at hslot
  have hsegs' : ∀ s ∈ (segs ++ ["uploads".data]) ++ [sid.data], GoodSegment s := by
    intro s hs
    rcases List.mem_append.mp hs with hs | hs
    · rcases List.mem_append.mp hs with hs | hs
      · exact hsegs s hs
      · rw [List.mem_singleton.mp hs]
        exact goodSegment_uploads
    · rw [List.mem_singleton.mp hs]
      exact hsid.1
  have hdestdata : f'.destination.data =
      '/' :: joinSlash ((segs ++ ["uploads".data]) ++ [sid.data]) := by
    rw [hfd, hsid.2]
    exact sessionUploadPath_absolute segs hsegs dirname hdir sid hsid.1
  have hpathdata : f'.path.data =
      '/' :: joinSlash (((segs ++ ["uploads".data]) ++ [sid.data]) ++ [f'.filename.data]) := by
    rw [hpath, ← hfd]
    exact pathJoin_absolute_good _ hsegs' f'.destination hdestdata f'.filename hgoodf
  refine ⟨hfn, ?_, ?_, ?_, ?_, ?_, ?_, ?_, ?_, ?_, ?_⟩
  · exact hgoodf.2.1
  · rw [hfdata]
    exact hback
  · exact string_ne_of_data_ne hgoodf.1
  · exact string_ne_of_data_ne hgoodf.2.2.1
  · exact string_ne_of_data_ne hgoodf.2.2.2
  · rw [hfd, hsid.2]
  · apply String.ext
    rw [hpathdata, joinSlash_snoc _ (by simp)]
    simp only [String.data_append, hdestdata]
    simp
  · exact strictlyInside_absolute _ hsegs' f'.destination f'.path f'.filename.data hgoodf
      hdestdata hpathdata
  · intro hnoback
    rw [hfn]
    simp only [busboyFilename, basename]
    rw [busboyBasenameChars_eq_basenameChars _ hnoback hdata]
  · intro sessions sessionId dropped w hdrop
    simp [uploadSingle, hdrop]

theorem stored_name_stays_inside_witness :
    (∀ s ∈ ["srv".data, "safe-print".data, "backend".data], GoodSegment s) ∧
      demoDir.data = '/' :: joinSlash ["srv".data, "safe-print".data, "backend".data] ∧
      pathJoin [sessionUploadPath demoDir demoId, "passwd"] =
        sessionUploadPath demoDir demoId ++ "/" ++ "passwd" ∧
      strictlyInside (sessionUploadPath demoDir demoId)
        "/srv/safe-print/backend/uploads/session-1700000000000/passwd" = true ∧
      busboyFilename "../../etc/passwd" = "passwd" ∧
      busboyFilename ".." = "" ∧ busboyFilename "." = "" ∧ busboyFilename "" = "" ∧
      busboyFilename "/" = "" ∧
      uploadSingle demoDir demoStarted.sessions ⟨some demoId, some ⟨"..", 10⟩⟩ true =
        (.ok none, []) :=
  have hsegs : ∀ s ∈ ["srv".data, "safe-print".data, "backend".data], GoodSegment s := by
    intro s hs
    simp only [List.mem_cons, List.mem_singleton, List.not_mem_nil, or_false] at hs
    rcases hs with h | h | h <;> subst h <;> exact ⟨by decide, by decide, by decide, by decide⟩
  have key := stored_name_stays_inside demoDir ["srv".data, "safe-print".data, "backend".data]
    hsegs (by decide) [demoStart] demoId ⟨"../../etc/passwd", 1024⟩ true
    ⟨"passwd", 1024, sessionUploadPath demoDir demoId,
      "/srv/safe-print/backend/uploads/session-1700000000000/passwd"⟩
    [Effect.write "/srv/safe-print/backend/uploads/session-1700000000000/passwd" 1024] rfl
  ⟨hsegs, by decide, by decide, key.2.2.2.2.2.2.2.2.1, by decide, by decide, by decide,
   by decide, by decide, key.2.2.2.2.2.2.2.2.2.2 demoStarted.sessions (some demoId)
     ⟨"..", 10⟩ true (by decide)⟩

/-! ## Printing -/

/-- C6, refuted as stated. After `a.pdf` and `b.pdf` have been uploaded and
`a.pdf` printed, the entry of `a.pdf` in the session's `files`, and in the
`file-list` snapshot sent on joining, has no `printed` property: reading it
gives `undefined`, not `true`. -/
theorem printed_flag_absent_after_print :
    lookupSession (printFile demoQueued demoId "a.pdf").1.sessions demoId =
      some { demoRecord with files := [demoEntryA, demoEntryB], fileCounter := 3 } ∧
    (joinSession (printFile demoQueued demoId "a.pdf").1 9 demoId).2 =
      [Effect.join 9 demoId, Effect.toSocket 9 (.fileList [demoEntryA, demoEntryB])] ∧
    demoEntryA.name = "a.pdf" ∧
    demoEntryA.prop "printed" = JsValue.undefined ∧
    ¬ (∀ f ∈ [demoEntryA, demoEntryB], f.name = "a.pdf" → f.prop "printed" = JsValue.bool true) := by
  decide

/-- C6, amended. A print action for a live session leaves the server state as
it is, and no queue entry has a `printed` property. When some entry of the
session has the name, the action runs the print command in the session's
container and broadcasts one `file-printed` event with the name to the room.
On the dashboard that handles this event every row whose name is the printed
one is shown as printed and the rows with other names keep their state, and
no later event other than `session-started` and `session-ended` turns a row
shown as printed back. -/
theorem print_marks_rows_on_dashboard (st : Server) (sid fileName : String) (s : Session)
    (h : lookupSession st.sessions sid = some s) :
    (printFile st sid fileName).1 = st ∧
    (∀ f : FileData, f.prop "printed" = JsValue.undefined) ∧
    ((∃ f ∈ s.files, f.name = fileName) →
      (printFile st sid fileName).2 =
        [Effect.print s.containerId fileName, Effect.toRoom sid (.filePrinted fileName)]) ∧
    ((¬ ∃ f ∈ s.files, f.name = fileName) → (printFile st sid fileName).2 = []) ∧
    (∀ (d : Dashboard) (f : FileData),
      (d.on (.filePrinted fileName)).shownPrinted f =
        (decide (f.name = fileName) || d.shownPrinted f)) ∧
    (∀ (d : Dashboard) (ev : ServerEvent) (f : FileData),
      (∀ a b c, ev ≠ .sessionStarted a b c) → ev ≠ .sessionEnded →
      d.shownPrinted f = true → (d.on ev).shownPrinted f = true) := by
  have hslot := readSession_of_lookup h
  refine ⟨?_, ?_, ?_, ?_, ?_, ?_⟩
  · simp only [printFile, hslot]
    split <;> rfl
  · intro f
    simp [FileData.prop]
  · intro hex
    have hany : s.files.any (fun f => decide (f.name = fileName)) = true := by
      simpa [List.any_eq_true] using hex
    simp [printFile, hslot, hany]
  · intro hex
    have hany : s.files.any (fun f => decide (f.name = fileName)) = false := by
      rw [Bool.eq_false_iff]
      intro hc
      exact hex (by simpa [List.any_eq_true] using hc)
    simp [printFile, hslot, hany]
  · intro d f
    by_cases hmem : fileName ∈ d.printedFiles
    · by_cases hf : f.name = fileName
      · simp [Dashboard.on, Dashboard.shownPrinted, hmem, hf]
      · simp [Dashboard.on, Dashboard.shownPrinted, hmem, hf]
    · by_cases hf : f.name = fileName
      · simp [Dashboard.on, Dashboard.shownPrinted, hmem, hf]
      · simp [Dashboard.on, Dashboard.shownPrinted, hmem, hf]
  · intro d ev f hstart hend hshown
    cases ev with
    | sessionStarted a b c => exact absurd rfl (hstart a b c)
    | sessionEnded => exact absurd rfl hend
    | fileUploaded file => simpa [Dashboard.on, Dashboard.shownPrinted] using hshown
    | fileList files => simpa [Dashboard.on, Dashboard.shownPrinted] using hshown
    | filePrinted name =>
      simp only [Dashboard.shownPrinted, decide_eq_true_eq] at hshown
      by_cases hmem : name ∈ d.printedFiles
      · simp [Dashboard.on, Dashboard.shownPrinted, hmem, hshown]
      · simp [Dashboard.on, Dashboard.shownPrinted, hmem, hshown]
    | error message => simpa [Dashboard.on, Dashboard.shownPrinted] using hshown

theorem print_marks_rows_on_dashboard_witness :
    lookupSession demoQueued.sessions demoId =
        some { demoRecord with files := [demoEntryA, demoEntryB], fileCounter := 3 } ∧
      (printFile demoQueued demoId "a.pdf").2 =
        [Effect.print 0 "a.pdf", Effect.toRoom demoId (.filePrinted "a.pdf")] ∧
      (Dashboard.on ⟨[demoEntryA, demoEntryB], []⟩ (.filePrinted "a.pdf")).shownPrinted
          demoEntryA = true ∧
      (Dashboard.on ⟨[demoEntryA, demoEntryB], []⟩ (.filePrinted "a.pdf")).shownPrinted
          demoEntryB = false :=
  have key := print_marks_rows_on_dashboard demoQueued demoId "a.pdf"
    { demoRecord with files := [demoEntryA, demoEntryB], fileCounter := 3 } (by decide)
  ⟨by decide, key.2.2.1 ⟨demoEntryA, by decide, by decide⟩,
   by rw [key.2.2.2.2.1]; decide, by rw [key.2.2.2.2.1]; decide⟩

theorem printFile_named {st : Server} {sid fileName : String} {s : Session}
    (hl : lookupSession st.sessions sid = some s) (hex : ∃ f ∈ s.files, f.name = fileName) :
    (printFile st sid fileName).2 =
      [Effect.print s.containerId fileName, Effect.toRoom sid (.filePrinted fileName)] := by
  have hany : s.files.any (fun f => decide (f.name = fileName)) = true := by
    simpa [List.any_eq_true] using hex
  simp [printFile, readSession_of_lookup hl, hany]

theorem printFile_silent {st : Server} {sid fileName : String}
    (hslot : readSession st.sessions sid ≠ .inherited)
    (h : ¬ ∃ s, lookupSession st.sessions sid = some s ∧ ∃ f ∈ s.files, f.name = fileName) :
    printFile st sid fileName = (st, []) := by
  cases hr : readSession st.sessions sid with
  | undefined => simp [printFile, hr]
  | inherited => exact absurd hr hslot
  | record s =>
    have hany : s.files.any (fun f => decide (f.name = fileName)) = false := by
      rw [Bool.eq_false_iff]
      intro hc
      exact h ⟨s, lookup_of_readSession_record hr, by simpa [List.any_eq_true] using hc⟩
    simp [printFile, hr, hany]

/-- What holds of print-file for every id that does not name a member
inherited from `Object.prototype`: the state is unchanged, and the events sent
are exactly one `file-printed` to the room if and only if the session is live
and some entry has the name; otherwise there is no effect at all. -/
theorem printFile_broadcast_of_not_inherited (st : Server) (sid fileName : String)
    (hslot : readSession st.sessions sid ≠ .inherited) :
    (printFile st sid fileName).1 = st ∧
      (emitted (printFile st sid fileName).2 = [Effect.toRoom sid (.filePrinted fileName)] ↔
        ∃ s, lookupSession st.sessions sid = some s ∧ ∃ f ∈ s.files, f.name = fileName) ∧
      ((¬ ∃ s, lookupSession st.sessions sid = some s ∧ ∃ f ∈ s.files, f.name = fileName) →
        (printFile st sid fileName).2 = []) := by
  refine ⟨?_, ⟨?_, ?_⟩, fun hno => by rw [printFile_silent hslot hno]⟩
  · cases hr : readSession st.sessions sid with
    | undefined => simp [printFile, hr]
    | inherited => exact absurd hr hslot
    | record s =>
      simp only [printFile, hr]
      split <;> rfl
  · intro hem
    by_contra hno
    rw [printFile_silent hslot hno] at hem
    simp [emitted] at hem
  · rintro ⟨s, hl, hex⟩
    rw [printFile_named hl hex]
    simp [emitted, Effect.isEmit]

/-- C15, evaluated. For the id `constructor`, which is not a key of the store,
the read `sessions[sessionId]` finds the member every object inherits, the
guard goes on to `session.files.some` and throws a TypeError that nothing
catches: no `file-printed` is sent, but the handler does fail, the process
ends and no later event is handled. -/
theorem print_file_inherited_name_throws :
    lookupSession demoQueued.sessions "constructor" = none ∧
    readSession demoQueued.sessions "constructor" = .inherited ∧
    printFile demoQueued "constructor" "a.pdf" =
      ({ demoQueued with down := true }, [Effect.uncaught "TypeError"]) ∧
    (printFile demoQueued "constructor" "a.pdf").1 ≠ demoQueued ∧
    step demoDir (printFile demoQueued "constructor" "a.pdf").1
        (demoUpload demoId "c.pdf" 10 1700000000700) =
      ((printFile demoQueued "constructor" "a.pdf").1, []) := by
  decide

/-! ## Ending a session -/

theorem step_absent (dirname : String) (st : Server) (sid : String) (e : Event)
    (hm : mints sid e = false) (h : lookupSession st.sessions sid = none) :
    lookupSession (step dirname st e).1.sessions sid = none := by
  rcases step_sessions dirname st e with
    hs | ⟨now, startTime, hmint, hs⟩ | ⟨k, s, name, size, now, hl, _, hs⟩ | ⟨k, fault, _, hs⟩
  · rw [hs, h]
  · have hne : sid ≠ mintSessionId now := by
      intro heq
      rw [heq, hmint] at hm
      cases hm
    rw [hs, lookupSession_putSession_other _ _ hne, h]
  · have hne : sid ≠ k := by
      intro heq
      rw [heq, hl] at h
      cases h
    rw [hs, lookupSession_putSession_other _ _ hne, h]
  · rw [hs]
    by_cases hk : sid = k
    · rw [hk]
      exact lookupSession_deleteSession_same _ _
    · rw [lookupSession_deleteSession_other _ hk, h]

theorem run_absent (dirname : String) (sid : String) (evs : List Event) :
    ∀ st : Server, (∀ e ∈ evs, mints sid e = false) → lookupSession st.sessions sid = none →
      lookupSession (run dirname st evs).sessions sid = none := by
  induction evs with
  | nil => intro st _ h; simpa [run] using h
  | cons e es ih =>
    intro st hm h
    simp only [run]
    exact ih _ (fun e' he' => hm e' (List.mem_cons_of_mem _ he'))
      (step_absent dirname st sid e (hm e (List.mem_cons_self _ _)) h)

/-- What the end-session handler does for a live session `sid`, whatever the
outcome of the sandbox release: it releases the session's container, asks for
the removal of its storage path, broadcasts `session-ended` to room `sid` and
deletes the key; until a start-session mints the same id again the key stays
absent, and an upload to it changes nothing and is answered 404 when multer
attaches no file and 500, for the error of the `destination` callback,
otherwise. -/
theorem endSession_teardown (dirname : String) (st : Server) (sid : String) (s : Session)
    (fault : ReleaseFault) (h : lookupSession st.sessions sid = some s)
    (hname : sid ∉ objectPrototypeNames) :
    (endSession dirname st sid fault).2 =
        [Effect.release (some s.containerId), Effect.rm (sessionUploadPath dirname sid),
         Effect.toRoom sid .sessionEnded] ∧
      lookupSession (endSession dirname st sid fault).1.sessions sid = none ∧
      (∀ p ∈ (endSession dirname st sid fault).1.sessions, p.1 ≠ sid) ∧
      (∀ evs : List Event, (∀ e ∈ evs, mints sid e = false) →
        ∀ (file : Option FilePart) (writeOk : Bool) (now : Nat),
          postUpload dirname (run dirname (endSession dirname st sid fault).1 evs)
              ⟨some sid, file⟩ writeOk now =
            (run dirname (endSession dirname st sid fault).1 evs,
             (match file with
              | none => Response.json 404 "Session not found or has expired." none
              | some part =>
                if busboyFilename part.declaredName = "" then
                  Response.json 404 "Session not found or has expired." none
                else Response.failure 500 "Invalid or expired session."),
             [])) := by
  have hslot := readSession_of_lookup h
  have hst : (endSession dirname st sid fault).1.sessions = deleteSession st.sessions sid := by
    simp [endSession, hslot]
  have hnone : lookupSession (endSession dirname st sid fault).1.sessions sid = none := by
    rw [hst]
    exact lookupSession_deleteSession_same _ _
  refine ⟨by simp [endSession, hslot, sessionUploadPath], hnone,
    lookupSession_none_iff.mp hnone, ?_⟩
  intro evs hevs file writeOk now
  have habs := run_absent dirname sid evs _ hevs hnone
  exact postUpload_unknown_session dirname _ ⟨some sid, file⟩ writeOk now
    (by simp [readSession, queryKey, habs, hname])

/-- C7, evaluated. The end-session handler of the live session tears it down
(release, removal of the storage path, `session-ended`, key deleted), but the
uploads that follow are not all rejected as session-not-found: one with a file
part is answered with the 500 of Express, not with the 404 of the handler, and
after a start-session at the clock reading that minted the id an upload to the
id is accepted again with ticket 1. -/
theorem upload_after_end_session :
    (endSession demoDir demoQueued demoId .none).2 =
      [Effect.release (some 0),
       Effect.rm "/srv/safe-print/backend/uploads/session-1700000000000",
       Effect.toRoom demoId .sessionEnded] ∧
    lookupSession (endSession demoDir demoQueued demoId .none).1.sessions demoId = none ∧
    postUpload demoDir (endSession demoDir demoQueued demoId .none).1
        ⟨some demoId, some ⟨"c.pdf", 10⟩⟩ true 1700000000700 =
      ((endSession demoDir demoQueued demoId .none).1,
       .failure 500 "Invalid or expired session.", []) ∧
    postUpload demoDir (endSession demoDir demoQueued demoId .none).1
        ⟨some demoId, none⟩ true 1700000000700 =
      ((endSession demoDir demoQueued demoId .none).1,
       .json 404 "Session not found or has expired." none, []) ∧
    (postUpload demoDir
        (startSession demoDir (endSession demoDir demoQueued demoId .none).1 8 1700000000000
          1700000000900 .none (some "data:image/png;base64,iVBORw0KGgo=")).1
        ⟨some demoId, some ⟨"c.pdf", 10⟩⟩ true 1700000000950).2 =
      (.json 200 "File sent to the counter!" (some 1),
       [Effect.write "/srv/safe-print/backend/uploads/session-1700000000000/c.pdf" 10,
        Effect.toRoom demoId (.fileUploaded ⟨1, "c.pdf", 10, 1700000000950⟩)]) := by
  decide

/-- What holds of end-session for an id whose read is `undefined`: the state
is unchanged and nothing is done. And for every id, ending it a second time
leaves the state of the first. -/
theorem endSession_absent (dirname : String) (st : Server) (sid : String)
    (fault fault' : ReleaseFault) :
    (readSession st.sessions sid = .undefined → endSession dirname st sid fault = (st, [])) ∧
      (endSession dirname (endSession dirname st sid fault).1 sid fault').1 =
        (endSession dirname st sid fault).1 := by
  refine ⟨fun h => by simp [endSession, h], ?_⟩
  cases hr : readSession st.sessions sid with
  | undefined => simp [endSession, hr]
  | inherited => simp [endSession, hr]
  | record s =>
    have h1 : (endSession dirname st sid fault).1.sessions = deleteSession st.sessions sid := by
      simp [endSession, hr]
    have hl : lookupSession (endSession dirname st sid fault).1.sessions sid = none := by
      rw [h1]
      exact lookupSession_deleteSession_same _ _
    generalize (endSession dirname st sid fault).1 = st₁ at hl ⊢
    cases hr₁ : readSession st₁.sessions sid with
    | undefined => simp [endSession, hr₁]
    | inherited => simp [endSession, hr₁]
    | record s₁ =>
      rw [lookup_of_readSession_record hr₁] at hl
      cases hl

/-- C8, evaluated. The id `constructor` is not a key of the store, yet the
read `sessions[sessionId]` finds the member every object inherits and the
handler runs its body: it calls `stopAndRemoveContainer` with an `undefined`
id, asks for the removal of `uploads/constructor` and broadcasts
`session-ended` to room `constructor`. The store itself is left as it was, as
it is for an id like `session-404`, for which nothing at all is done. -/
theorem end_session_inherited_name :
    lookupSession demoQueued.sessions "constructor" = none ∧
    endSession demoDir demoQueued "constructor" .none =
      (demoQueued,
       [Effect.release none, Effect.rm "/srv/safe-print/backend/uploads/constructor",
        Effect.toRoom "constructor" .sessionEnded]) ∧
    endSession demoDir demoQueued "session-404" .none = (demoQueued, []) := by
  decide

/-! ## Starting a session -/

/-- C10. When provisioning (pull, create or start) or the QR encoder fails,
the start-session handler leaves the session store and the room membership as
they were and, besides ensuring the session directory, does exactly one thing:
it sends one `error` event to the requesting socket. No room is joined and no
`session-started` is emitted. -/
theorem start_session_failure_inserts_nothing (dirname : String) (st : Server)
    (socket now startTime : Nat) (fault : ProvisionFault) (qr : Option String)
    (h : fault ≠ .none ∨ qr = none) :
    (startSession dirname st socket now startTime fault qr).1.sessions = st.sessions ∧
      (startSession dirname st socket now startTime fault qr).1.rooms = st.rooms ∧
      (startSession dirname st socket now startTime fault qr).2 =
        [Effect.ensureDir (sessionUploadPath dirname (mintSessionId now)),
         Effect.toSocket socket
           (.error "Failed to start Docker container. Is Docker running?")] := by
  cases fault with
  | none =>
    rcases h with h | h
    · exact absurd rfl h
    · subst h
      simp [startSession, startSessionContainer, sessionUploadPath]
  | pull => simp [startSession, startSessionContainer, sessionUploadPath]
  | create => simp [startSession, startSessionContainer, sessionUploadPath]
  | start => simp [startSession, startSessionContainer, sessionUploadPath]

theorem start_session_failure_inserts_nothing_witness :
    (ProvisionFault.start ≠ .none ∨ (some "data:image/png;base64,iVBORw0KGgo=") = none) ∧
      (startSession demoDir demoQueued 8 1700000000500 1700000000502 .start
          (some "data:image/png;base64,iVBORw0KGgo=")).1.sessions = demoQueued.sessions ∧
      (startSession demoDir demoQueued 8 1700000000500 1700000000502 .start
          (some "data:image/png;base64,iVBORw0KGgo=")).1.rooms = demoQueued.rooms ∧
      (startSession demoDir demoQueued 8 1700000000500 1700000000502 .start
          (some "data:image/png;base64,iVBORw0KGgo=")).2 =
        [Effect.ensureDir (sessionUploadPath demoDir (mintSessionId 1700000000500)),
         Effect.toSocket 8
           (.error "Failed to start Docker container. Is Docker running?")] :=
  ⟨by decide,
   start_session_failure_inserts_nothing demoDir demoQueued 8 1700000000500 1700000000502
     .start (some "data:image/png;base64,iVBORw0KGgo=") (by decide)⟩

/-- C9, evaluated. When the clock reads the value that minted a live session,
a successful start-session stores its record under the id that is already a
key: the store does not gain a session and the record that was there, with its
two queue entries and its container id, is replaced. -/
theorem start_session_id_collision :
    lookupSession demoQueued.sessions (mintSessionId 1700000000000) =
      some { demoRecord with files := [demoEntryA, demoEntryB], fileCounter := 3 } ∧
    (startSession demoDir demoQueued 8 1700000000000 1700000000300 .none
        (some "data:image/png;base64,iVBORw0KGgo=")).1.sessions =
      [(demoId, { demoRecord with containerId := 1, startTime := 1700000000300 })] ∧
    (startSession demoDir demoQueued 8 1700000000000 1700000000300 .none
        (some "data:image/png;base64,iVBORw0KGgo=")).1.sessions.length =
      demoQueued.sessions.length ∧
    lookupSession
        (startSession demoDir demoQueued 8 1700000000000 1700000000300 .none
          (some "data:image/png;base64,iVBORw0KGgo=")).1.sessions demoId ≠
      lookupSession demoQueued.sessions demoId := by
  decide

/-- What holds of a successful start-session when the id minted from the
clock reading is not yet a key of the store: its record is appended under that
id, the store gains exactly one session and the record of every other id is
the one it was. And in every state reached from the empty store no two live
sessions share an id, a container id or a storage path. -/
theorem start_session_inserts_fresh_record (dirname : String) (st : Server)
    (socket now startTime : Nat) (qr : String) (evs : List Event)
    (h : lookupSession st.sessions (mintSessionId now) = none) :
    (startSession dirname st socket now startTime .none (some qr)).1.sessions =
        st.sessions ++
          [(mintSessionId now, freshSession (mintSessionId now) st.docker.nextId startTime)] ∧
      (startSession dirname st socket now startTime .none (some qr)).1.sessions.length =
        st.sessions.length + 1 ∧
      (∀ k, k ≠ mintSessionId now →
        lookupSession (startSession dirname st socket now startTime .none (some qr)).1.sessions
            k = lookupSession st.sessions k) ∧
      Separate dirname (run dirname Server.init evs).sessions := by
  have hs : (startSession dirname st socket now startTime .none (some qr)).1.sessions =
      putSession st.sessions (mintSessionId now)
        (freshSession (mintSessionId now) st.docker.nextId startTime) := by
    rcases startSession_cases dirname st socket now startTime .none (some qr) with
      hfail | ⟨q, _, _, hok⟩
    · rcases hfail.1 with h' | h'
      · exact absurd rfl h'
      · cases h'
    · rw [hok]
  refine ⟨?_, ?_, ?_, ?_⟩
  · rw [hs, putSession_of_lookup_none _ h]
  · rw [hs, putSession_of_lookup_none _ h]
    simp
  · intro k hk
    rw [hs]
    exact lookupSession_putSession_other _ _ hk
  · apply separate_of_storeInv
    apply run_storeInv
    simp [StoreInv, Server.init]

theorem start_session_inserts_fresh_record_witness :
    lookupSession demoQueued.sessions (mintSessionId 1700000000500) = none ∧
      (startSession demoDir demoQueued 8 1700000000500 1700000000502 .none
          (some "data:image/png;base64,iVBORw0KGgo=")).1.sessions =
        demoQueued.sessions ++
          [(mintSessionId 1700000000500,
            freshSession (mintSessionId 1700000000500) demoQueued.docker.nextId
              1700000000502)] ∧
      Separate demoDir
        (run demoDir Server.init
          [demoStart, demoUpload demoId "a.pdf" 1024 1700000000100,
           Event.startSession 8 1700000000500 1700000000502 .none
             (some "data:image/png;base64,iVBORw0KGgo=")]).sessions :=
  have key := start_session_inserts_fresh_record demoDir demoQueued 8 1700000000500
    1700000000502 "data:image/png;base64,iVBORw0KGgo="
    [demoStart, demoUpload demoId "a.pdf" 1024 1700000000100,
     Event.startSession 8 1700000000500 1700000000502 .none
       (some "data:image/png;base64,iVBORw0KGgo=")] (by decide)
  ⟨by decide, key.1, key.2.2.2⟩

/-! ## Failed provisioning and the engine -/

/-- C11, refuted as stated. A failure at the start step leaves the container
the call created in the engine: after the call the engine holds the container
of the running session and, in addition, the new one, not running. -/
theorem failed_start_leaves_container :
    demoStarted.docker.containers = [containerFor demoDir demoId 0 true] ∧
    (startSessionContainer demoDir demoStarted.docker "session-1700000000500" .start).2.1 =
      .error "start" ∧
    (startSessionContainer demoDir demoStarted.docker "session-1700000000500"
        .start).1.containers =
      [containerFor demoDir demoId 0 true,
       containerFor demoDir "session-1700000000500" 1 false] ∧
    (startSessionContainer demoDir demoStarted.docker "session-1700000000500"
        .start).1.containers ≠ demoStarted.docker.containers :=
  ⟨by decide, rfl, by decide, by decide⟩

/-- C11, amended. A failure of `startSessionContainer` surfaces an error; at
the pull or the create step the engine is left exactly as it was; at the
start step the containers that existed before are kept as they were and the
one container the call created is added, not running. In every case whatever
the failed call adds to the engine is not running. -/
theorem failed_provision_engine (dirname : String) (docker : Engine) (sessionId : String)
    (fault : ProvisionFault) (h : fault ≠ .none) :
    (∃ e, (startSessionContainer dirname docker sessionId fault).2.1 = .error e) ∧
      ((fault = .pull ∨ fault = .create) →
        (startSessionContainer dirname docker sessionId fault).1 = docker) ∧
      (fault = .start →
        (startSessionContainer dirname docker sessionId fault).1.containers =
          docker.containers ++ [containerFor dirname sessionId docker.nextId false]) ∧
      (∃ added,
        (startSessionContainer dirname docker sessionId fault).1.containers =
            docker.containers ++ added ∧
          ∀ c ∈ added, c.running = false) := by
  cases fault with
  | none => exact absurd rfl h
  | pull =>
    refine ⟨⟨"pull", rfl⟩, fun _ => rfl, fun hc => (by cases hc), [], ?_, ?_⟩
    · simp [startSessionContainer]
    · simp
  | create =>
    refine ⟨⟨"create", rfl⟩, fun _ => rfl, fun hc => (by cases hc), [], ?_, ?_⟩
    · simp [startSessionContainer]
    · simp
  | start =>
    refine ⟨⟨"start", rfl⟩, fun hc => ?_, fun _ => rfl,
      [containerFor dirname sessionId docker.nextId false], rfl, ?_⟩
    · rcases hc with hc | hc <;> cases hc
    · simp [containerFor]

theorem failed_provision_engine_witness :
    ProvisionFault.create ≠ .none ∧
      (startSessionContainer demoDir demoStarted.docker "session-1700000000500" .create).1 =
        demoStarted.docker :=
  ⟨by decide,
   (failed_provision_engine demoDir demoStarted.docker "session-1700000000500" .create
      (by decide)).2.1 (Or.inr rfl)⟩

/-! ## Joining a room -/

theorem mem_joinRoom (rooms : List (Nat × String)) (socket : Nat) (room : String)
    (m : Nat × String) :
    m ∈ joinRoom rooms socket room ↔ m ∈ rooms ∨ m = (socket, room) := by
  unfold joinRoom
  split
  · constructor
    · exact Or.inl
    · rintro (h | h)
      · exact h
      · rw [h]
        assumption
  · simp

/-- What holds of join-session for every id: the store is unchanged. For a
live id the socket is added to that room and to no other, and exactly one
`file-list` event, carrying the session's `files` as stored, is sent to the
requesting socket. For an id whose read is `undefined` nothing changes and
exactly one `error` event is sent to the requesting socket. -/
theorem joinSession_snapshot (st : Server) (socket : Nat) (sid : String) :
    (joinSession st socket sid).1.sessions = st.sessions ∧
      (∀ s, lookupSession st.sessions sid = some s →
        (joinSession st socket sid).2 =
            [Effect.join socket sid, Effect.toSocket socket (.fileList s.files)] ∧
          ∀ m, m ∈ (joinSession st socket sid).1.rooms ↔ m ∈ st.rooms ∨ m = (socket, sid)) ∧
      (readSession st.sessions sid = .undefined →
        (joinSession st socket sid).1 = st ∧
          (joinSession st socket sid).2 =
            [Effect.toSocket socket (.error ("Session " ++ sid ++ " does not exist."))]) := by
  refine ⟨(joinSession_sessions st socket sid).1, ?_, ?_⟩
  · intro s hs
    have hslot := readSession_of_lookup hs
    constructor
    · simp [joinSession, hslot]
    · intro m
      simp only [joinSession, hslot]
      exact mem_joinRoom st.rooms socket sid m
  · intro hs
    simp [joinSession, hs]

/-- C12, evaluated. The id `constructor` is not a live session, yet the read
`sessions[sessionId]` finds the member every object inherits and the handler
takes its first branch: the socket joins room `constructor` and is sent
`file-list` with an `undefined` payload; no `error` event is sent. For an id
like `session-404` the handler does send the one `error` event and changes
nothing. -/
theorem join_session_inherited_name :
    lookupSession demoQueued.sessions "constructor" = none ∧
    joinSession demoQueued 9 "constructor" =
      ({ demoQueued with rooms := [(7, demoId), (9, "constructor")] },
       [Effect.join 9 "constructor", Effect.emitUndefined 9 "file-list"]) ∧
    (joinSession demoQueued 9 "constructor").1.rooms ≠ demoQueued.rooms ∧
    joinSession demoQueued 9 "session-404" =
      (demoQueued, [Effect.toSocket 9 (.error "Session session-404 does not exist.")]) := by
  decide

/-! ## Uploads without a file, and other sessions -/

/-- C13. An upload that names a live session but has no file part is answered
400 and changes nothing: the state, hence the session's `files` and
`fileCounter`, is the one before, and no event is sent. -/
theorem upload_without_file_is_400 (dirname : String) (st : Server) (sid : String)
    (s : Session) (writeOk : Bool) (now : Nat) (h : lookupSession st.sessions sid = some s) :
    postUpload dirname st ⟨some sid, none⟩ writeOk now =
        (st, .json 400 "File upload failed." none, []) ∧
      (postUpload dirname st ⟨some sid, none⟩ writeOk now).2.1.status = 400 ∧
      lookupSession (postUpload dirname st ⟨some sid, none⟩ writeOk now).1.sessions sid =
        some s := by
  have hq : lookupSession st.sessions (queryKey (some sid)) = some s := by
    simpa [queryKey] using h
  have hpost : postUpload dirname st ⟨some sid, none⟩ writeOk now =
      (st, .json 400 "File upload failed." none, []) := by
    simp [postUpload, uploadSingle, uploadHandler_noFile now hq]
  rw [hpost]
  exact ⟨rfl, rfl, h⟩

theorem upload_without_file_is_400_witness :
    lookupSession demoQueued.sessions demoId =
        some { demoRecord with files := [demoEntryA, demoEntryB], fileCounter := 3 } ∧
      postUpload demoDir demoQueued ⟨some demoId, none⟩ true 1700000000300 =
        (demoQueued, .json 400 "File upload failed." none, []) :=
  ⟨by decide,
   (upload_without_file_is_400 demoDir demoQueued demoId
      { demoRecord with files := [demoEntryA, demoEntryB], fileCounter := 3 } true
      1700000000300 (by decide)).1⟩

theorem uploadSingle_no_emit (dirname : String) (sessions : List (String × Session))
    (req : UploadRequest) (writeOk : Bool) :
    ∀ e ∈ (uploadSingle dirname sessions req writeOk).2, e.isEmit = false := by
  intro e he
  rcases uploadSingle_cases dirname sessions req writeOk with
    ⟨err, effs, hres, hno⟩ | hres | ⟨_, _, f, effs, _, _, _, _, _, _, _, _, heffs, hres⟩
  · rw [hres] at he
    exact hno e he
  · rw [hres] at he
    simp at he
  · rw [hres, heffs] at he
    simp only [List.mem_singleton] at he
    rw [he]
    rfl

/-- An upload broadcasts to no room but the one named by the request. -/
theorem postUpload_toRoom (dirname : String) (st : Server) (req : UploadRequest)
    (writeOk : Bool) (now : Nat) (room : String) (ev : ServerEvent)
    (hmem : Effect.toRoom room ev ∈ (postUpload dirname st req writeOk now).2.2) :
    room = queryKey req.sessionId := by
  have hsingle := uploadSingle_no_emit dirname st.sessions req writeOk
  unfold postUpload at hmem
  rcases hres : uploadSingle dirname st.sessions req writeOk with ⟨res, effs⟩
  rw [hres] at hmem hsingle
  cases res with
  | error e =>
    have := hsingle _ hmem
    simp [Effect.isEmit] at this
  | ok file =>
    simp only [List.mem_append] at hmem
    rcases hmem with hmem | hmem
    · have := hsingle _ hmem
      simp [Effect.isEmit] at this
    · cases hslot : readSession st.sessions (queryKey req.sessionId) with
      | undefined =>
        rw [uploadHandler_notFound file now hslot] at hmem
        simp at hmem
      | inherited =>
        rw [uploadHandler_inherited file now hslot] at hmem
        simp at hmem
      | record s =>
        have hl := lookup_of_readSession_record hslot
        cases file with
        | none =>
          rw [uploadHandler_noFile now hl] at hmem
          simp at hmem
        | some f =>
          rw [uploadHandler_accepted f now hl] at hmem
          simp only [List.mem_singleton, Effect.toRoom.injEq] at hmem
          exact hmem.1

/-- C14. Whatever an upload request does for the session it names, accepted
or rejected, it leaves the record of every other session as it was and
broadcasts nothing to the room of any other session. Tickets are counted per
session: in the run with two shops each of the two sessions holds a ticket
1. -/
theorem upload_frames_other_sessions (dirname : String) (st : Server) (req : UploadRequest)
    (writeOk : Bool) (now : Nat) (other : String) (h : other ≠ queryKey req.sessionId) :
    lookupSession (postUpload dirname st req writeOk now).1.sessions other =
        lookupSession st.sessions other ∧
      (∀ ev, Effect.toRoom other ev ∉ (postUpload dirname st req writeOk now).2.2) ∧
      (∃ a b sa sb, a ≠ b ∧ lookupSession demoTwoShops.sessions a = some sa ∧
        lookupSession demoTwoShops.sessions b = some sb ∧
        (∃ f ∈ sa.files, f.id = 1) ∧ ∃ f ∈ sb.files, f.id = 1) := by
  refine ⟨?_, ?_, ?_⟩
  · rcases postUpload_cases dirname st req writeOk now with
      ⟨e, effs, hu⟩ | ⟨status, msg, _, hu⟩ | ⟨s, file, effs, _, hu⟩
    · rw [hu]
    · rw [hu]
    · rw [hu]
      exact lookupSession_putSession_other _ _ h
  · intro ev hmem
    exact h (postUpload_toRoom dirname st req writeOk now other ev hmem)
  · refine ⟨demoId, "session-1700000000500",
      { demoRecord with files := [demoEntryA, demoEntryB], fileCounter := 3 },
      { id := "session-1700000000500", containerId := 1, startTime := 1700000000502,
        files := [{ id := 1, name := "a.pdf", size := 1024, timestamp := 1700000000600 }],
        fileCounter := 2 }, by decide, by decide, by decide, ?_, ?_⟩
    · exact ⟨demoEntryA, by decide, by decide⟩
    · exact ⟨_, List.mem_singleton.mpr rfl, rfl⟩

theorem upload_frames_other_sessions_witness :
    "session-1700000000500" ≠ queryKey (some demoId) ∧
      lookupSession
          (postUpload demoDir demoTwoShops ⟨some demoId, some ⟨"c.pdf", 10⟩⟩ true
            1700000000700).1.sessions "session-1700000000500" =
        lookupSession demoTwoShops.sessions "session-1700000000500" ∧
      (∀ ev, Effect.toRoom "session-1700000000500" ev ∉
        (postUpload demoDir demoTwoShops ⟨some demoId, some ⟨"c.pdf", 10⟩⟩ true
          1700000000700).2.2) :=
  have key := upload_frames_other_sessions demoDir demoTwoShops
    ⟨some demoId, some ⟨"c.pdf", 10⟩⟩ true 1700000000700 "session-1700000000500" (by decide)
  ⟨by decide, key.1, key.2.1⟩

end SafePrint
